import Mathlib

/-!
Verification of the lazy server-connection reconciliation state machine
(`LazyConnector`, router/src/routing/src/classic_lazy_connect.cc).

The stage handlers, the statement-result handlers and the statement builders
are translated from the source file.  Collaborators that live outside the
source file (the sub-protocol processors, the connection pool, the value
store) are modelled from the specification; their outcomes are supplied by an
oracle `Input` consumed at each step of the machine.
-/

namespace LazyConnect

/-- Structured server error (code, message, SQL-state), as in
classic_protocol::message::server::Error. -/
structure Error where
  code : Nat
  message : String
  sqlState : String
deriving DecidableEq, Repr

/-- Modelled from the spec: the nullable scalar value of a session variable
(the Value type of the execution context is outside the source file);
absence of a variable is distinct from a stored NULL. -/
abbrev Value := Option String

/-- Modelled from the spec: std::quoted-style quoting; wraps the string in
the delimiter and backslash-escapes embedded delimiters and backslashes. -/
def quoteWith (delim : Char) (s : String) : String :=
  String.mk (delim :: s.data.foldr
    (fun c acc => if c = delim ∨ c = '\\' then '\\' :: c :: acc else c :: acc)
    [delim])

/-- The backquote character, used to quote identifiers. -/
def backquote : Char := "`".data.headD ' '

/-- Modelled from the spec: Value::to_string as used when building replay
statements: NULL for an absent scalar, a single-quoted literal otherwise. -/
def valueToString : Value → String
  | none => "NULL"
  | some s => quoteWith '\'' s

/-- Modelled from the spec: the ordered system-variable store of the
execution context, an ordered mapping from name to nullable scalar. -/
abbrev SystemVariables := List (String × Value)

/-- Modelled from the spec: SystemVariables::find, distinguishing absence
from a stored NULL. -/
def svFind (sv : SystemVariables) (key : String) : Option Value :=
  (sv.find? (fun kv => kv.1 = key)).map Prod.snd

/-- Modelled from the spec: SystemVariables::get; yields the NULL value both
for an absent variable and for a variable stored as NULL. -/
def svGet (sv : SystemVariables) (key : String) : Value :=
  (svFind sv key).join

/-- Modelled from the spec: SystemVariables::set, replacing the value of an
existing entry and appending a new entry otherwise. -/
def svSet (sv : SystemVariables) (key : String) (v : Value) : SystemVariables :=
  if (svFind sv key).isSome then
    sv.map (fun kv => if kv.1 = key then (key, v) else kv)
  else
    sv ++ [(key, v)]

/-- Modelled from the spec: the outcome of one query round-trip as delivered
by the QuerySender sub-processor to its result handler: a resultset (column
count and rows of nullable fields), a server error, or a plain OK. -/
inductive QueryOutcome where
  | resultset (cols : Nat) (rows : List (List Value))
  | serverErr (e : Error)
  | ok
deriving DecidableEq, Repr

/-- FailedQueryHandler: a server error on the statement is stored as the
machine's failure; success is silent. -/
def failedQueryRun (outcome : QueryOutcome) (failed : Option Error) : Option Error :=
  match outcome with
  | .serverErr e => some e
  | _ => failed

/-- Handler-local state of IsTrueHandler: the row counter and the machine's
failure slot it writes through processor_.failed. -/
structure IsTrueState where
  rowCount : Nat
  failed : Option Error
deriving DecidableEq, Repr

/-- IsTrueHandler::on_column_count. -/
def IsTrueHandler.on_column_count (count : Nat) (st : IsTrueState) : IsTrueState :=
  if count ≠ 1 then
    { st with failed := some ⟨0, "Too many columns", "HY000"⟩ }
  else st

/-- IsTrueHandler::on_row. -/
def IsTrueHandler.on_row (onCondFailError : Error) (row : List Value)
    (st : IsTrueState) : IsTrueState :=
  let st := { st with rowCount := st.rowCount + 1 }
  match row with
  | [] => { st with failed := some ⟨0, "No fields", "HY000"⟩ }
  | none :: _ => { st with failed := some ⟨0, "Expected integer, got NULL", "HY000"⟩ }
  | some fld :: _ =>
      if fld ≠ "1" then { st with failed := some onCondFailError } else st

/-- IsTrueHandler::on_row_end. -/
def IsTrueHandler.on_row_end (st : IsTrueState) : IsTrueState :=
  if st.rowCount ≠ 1 then
    { st with failed := some ⟨0, "Too many rows", "HY000"⟩ }
  else st

/-- Runs IsTrueHandler over a whole query outcome, starting from the given
failure slot, and returns the final failure slot. -/
def isTrueRun (onCondFailError : Error) (outcome : QueryOutcome)
    (failed : Option Error) : Option Error :=
  match outcome with
  | .serverErr e => some e
  | .ok => failed
  | .resultset cols rows =>
      (IsTrueHandler.on_row_end
        (rows.foldl (fun st row => IsTrueHandler.on_row onCondFailError row st)
          (IsTrueHandler.on_column_count cols ⟨0, failed⟩))).failed

/-- Handler-local state of SelectSessionVariablesHandler. -/
structure SSVState where
  colCount : Nat
  somethingFailed : Bool
  sessionVariables : List (String × Value)
deriving DecidableEq, Repr

/-- SelectSessionVariablesHandler::on_column_count. -/
def SelectSessionVariablesHandler.on_column_count (count : Nat) (st : SSVState) : SSVState :=
  let st := { st with colCount := count }
  if st.colCount ≠ 2 then { st with somethingFailed := true } else st

/-- SelectSessionVariablesHandler::on_row.  When the name column is NULL the
row marks the capture as failed; otherwise the (name, value) pair is
appended.  A row with fewer fields than the announced column count never
reaches the value read: with a column count other than 2 the failure flag is
already set and the row is skipped. -/
def SelectSessionVariablesHandler.on_row (row : List Value) (st : SSVState) : SSVState :=
  if st.somethingFailed then st
  else
    match row with
    | [] => st
    | none :: _ => { st with somethingFailed := true }
    | some key :: rest =>
        { st with sessionVariables := st.sessionVariables ++ [(key, rest.headD none)] }

/-- Modelled from the spec: target-role intent of the session, read-only
replica or read-write primary (the ServerMode enumeration lives outside the
source file; the spec treats the role as this binary intent). -/
inductive ServerMode where
  | ReadOnly
  | ReadWrite
deriving DecidableEq, Repr

/-- The stages of the LazyConnector state machine. -/
inductive Stage where
  | Connect
  | Connected
  | Authenticated
  | SetVars
  | SetVarsDone
  | SetServerOption
  | SetServerOptionDone
  | FetchSysVars
  | FetchSysVarsDone
  | SetSchema
  | SetSchemaDone
  | WaitGtidExecuted
  | WaitGtidExecutedDone
  | SetTrxCharacteristics
  | SetTrxCharacteristicsDone
  | FetchUserAttrs
  | FetchUserAttrsDone
  | SendAuthOk
  | PoolOrClose
  | FallbackToWrite
  | Done
deriving DecidableEq, Repr

/-- Observable actions of the machine: sub-processors pushed onto the
processor stack, statements sent to the server, the success reply sent to
the client, invocations of the caller-supplied error callback (tagged with
the stage whose handler registered or performed the call), and the
fallback-to-primary restart. -/
inductive Action where
  | pushConnect
  | pushResetConnection
  | pushChangeUser
  | pushServerGreetor
  | pushQuery (stmt : String)
  | pushSetOption (multiStatementsOn : Bool)
  | pushInitSchema (schema : String)
  | pushQuit
  | pushFetchUserAttrs
  | sendOkToClient
  | reportError (atStage : Stage) (e : Error)
  | fallbackRestart
deriving DecidableEq, Repr

/-- Modelled from the spec: the state of the owning connection object that
the machine reads and mutates (identity and capability snapshots, the
variable store, sharing and target-role flags, the transaction
characteristics accessor). -/
structure Connection where
  serverConnOpen : Bool
  authenticated : Bool
  clientUsername : String
  serverUsername : String
  clientSentAttributes : String
  serverSentAttributes : String
  clientGreetingSent : Bool
  serverGreeting : Bool
  clientSchema : String
  serverSchema : String
  clientMultiStatements : Bool
  serverMultiStatements : Bool
  connectionSharing : Bool
  greetingFromRouter : Bool
  connectionSharingPossible : Bool
  sysvars : SystemVariables
  someStateChanged : Bool
  waitForMyWrites : Bool
  waitForMyWritesTimeout : Nat
  gtidAtLeastExecuted : String
  expectedServerMode : ServerMode
  trxCharacteristics : Option (List Char)
  routerRequireEnforce : Bool
  seqId : Nat
deriving DecidableEq, Repr

/-- SelectSessionVariablesHandler::on_row_end: a failed capture only
downgrades shareability; a clean capture moves every captured pair into the
shared system-variable store, in order. -/
def SelectSessionVariablesHandler.on_row_end (st : SSVState) (conn : Connection) : Connection :=
  if st.somethingFailed then
    { conn with someStateChanged := true }
  else
    { conn with sysvars :=
        st.sessionVariables.foldl (fun sv kv => svSet sv kv.1 kv.2) conn.sysvars }

/-- Runs SelectSessionVariablesHandler over a whole query outcome: an
unexpected OK or a server error downgrade shareability
(SelectSessionVariablesHandler::on_ok / ::on_error), a resultset is folded
through the row callbacks and finished by on_row_end. -/
def ssvRun (outcome : QueryOutcome) (conn : Connection) : Connection :=
  match outcome with
  | .ok => { conn with someStateChanged := true }
  | .serverErr _ => { conn with someStateChanged := true }
  | .resultset cols rows =>
      SelectSessionVariablesHandler.on_row_end
        (rows.foldl (fun st row => SelectSessionVariablesHandler.on_row row st)
          (SelectSessionVariablesHandler.on_column_count cols ⟨0, false, []⟩))
        conn

/-- set_session_var: appends one assignment to the SET statement, starting
the statement when it is still empty. -/
def set_session_var (q : String) (key : String) (val : Value) : String :=
  (if q = "" then "SET " else q ++ ",\n    ") ++
    "@@SESSION." ++ key ++ " = " ++ valueToString val

/-- set_session_var_if_not_set: appends the assignment only when the store
holds no (non-NULL) value for the key. -/
def set_session_var_if_not_set (q : String) (sysvars : SystemVariables)
    (key : String) (value : Value) : String :=
  if svGet sysvars key = none then set_session_var q key value else q

/-- set_session_var_or_value: appends the stored value when one is set and
the supplied default otherwise. -/
def set_session_var_or_value (q : String) (sysvars : SystemVariables)
    (key : String) (defaultValue : Value) : String :=
  match svGet sysvars key with
  | none => set_session_var q key defaultValue
  | some v => set_session_var q key (some v)

/-- The SET statement built by LazyConnector::set_vars: the
session_track_system_variables assignment first, then one assignment per
stored variable (skipping session_track_system_variables and the read-only
statement_id), then the three forced tracking variables when session
trackers are needed. -/
def set_vars_stmt (needSessionTrackers : Bool) (sysvars : SystemVariables) : String :=
  let stmt :=
    if needSessionTrackers then
      set_session_var_or_value "" sysvars "session_track_system_variables" (some "*")
    else
      match svGet sysvars "session_track_system_variables" with
      | none => ""
      | some v => set_session_var "" "session_track_system_variables" (some v)
  let stmt := sysvars.foldl
    (fun q kv =>
      if kv.1 = "session_track_system_variables" ∨ kv.1 = "statement_id" then q
      else set_session_var q kv.1 kv.2)
    stmt
  if needSessionTrackers then
    set_session_var_if_not_set
      (set_session_var_if_not_set
        (set_session_var_if_not_set stmt sysvars "session_track_gtids" (some "OWN_GTID"))
        sysvars "session_track_transaction_info" (some "CHARACTERISTICS"))
      sysvars "session_track_state_change" (some "ON")
  else stmt

/-- The assignment produced for session_track_system_variables before the
main loop of set_vars, as a list of zero or one (key, value) pairs. -/
def setVarsHead (needSessionTrackers : Bool) (sysvars : SystemVariables) :
    List (String × Value) :=
  if needSessionTrackers then
    [("session_track_system_variables",
      match svGet sysvars "session_track_system_variables" with
      | none => some "*"
      | some v => some v)]
  else
    match svGet sysvars "session_track_system_variables" with
    | none => []
    | some v => [("session_track_system_variables", some v)]

/-- The assignments produced by the main loop of set_vars: one per stored
variable, skipping session_track_system_variables and statement_id. -/
def setVarsLoop (sysvars : SystemVariables) : List (String × Value) :=
  sysvars.filter
    (fun kv => kv.1 ≠ "session_track_system_variables" ∧ kv.1 ≠ "statement_id")

/-- The tracking-variable assignments injected after the main loop of
set_vars when session trackers are needed: each of the three tracking
variables is forced to its router default only when the store holds no
value for it. -/
def setVarsTail (needSessionTrackers : Bool) (sysvars : SystemVariables) :
    List (String × Value) :=
  if needSessionTrackers then
    (if svGet sysvars "session_track_gtids" = none then
      [("session_track_gtids", some "OWN_GTID")] else []) ++
    (if svGet sysvars "session_track_transaction_info" = none then
      [("session_track_transaction_info", some "CHARACTERISTICS")] else []) ++
    (if svGet sysvars "session_track_state_change" = none then
      [("session_track_state_change", some "ON")] else [])
  else []

/-- The full ordered list of assignments of the SET statement built by
set_vars. -/
def setVarsAssigns (needSessionTrackers : Bool) (sysvars : SystemVariables) :
    List (String × Value) :=
  setVarsHead needSessionTrackers sysvars ++ setVarsLoop sysvars ++
    setVarsTail needSessionTrackers sysvars

/-- Renders a list of assignments through set_session_var, starting from the
empty statement. -/
def renderAssigns (assigns : List (String × Value)) : String :=
  assigns.foldl (fun q kv => set_session_var q kv.1 kv.2) ""

/-- The sys-var probe statement built by LazyConnector::fetch_sys_vars: a
UNION of one SELECT per tracked variable missing from the store. -/
def fetch_sys_vars_stmt (sysvars : SystemVariables) : String :=
  ["collation_connection", "character_set_client", "sql_mode"].foldl
    (fun oss expectedVar =>
      if (svFind sysvars expectedVar).isSome then oss
      else
        (if oss ≠ "" then oss ++ " UNION " else oss) ++
          "SELECT " ++ quoteWith '\'' expectedVar ++ ", @@SESSION." ++
          quoteWith backquote expectedVar)
    ""

/-- The GTID wait statement built by LazyConnector::wait_gtid_executed: a
plain GTID_SUBSET probe with a zero max-replication-lag and a blocking
WAIT_FOR_EXECUTED_GTID_SET otherwise. -/
def wait_gtid_stmt (gtidExecuted : String) (maxReplicationLag : Nat) : String :=
  if maxReplicationLag = 0 then
    "SELECT GTID_SUBSET(" ++ quoteWith '"' gtidExecuted ++ ", @@GLOBAL.gtid_executed)"
  else
    "SELECT NOT WAIT_FOR_EXECUTED_GTID_SET(" ++ quoteWith '"' gtidExecuted ++
      ", " ++ toString maxReplicationLag ++ ")"

/-- Index of the first occurrence of a character, as std::string::find. -/
def findCharIdx (c : Char) : List Char → Option Nat
  | [] => none
  | x :: xs => if x = c then some 0 else (findCharIdx c xs).map (· + 1)

/-- Removes a single leading space, as the erase(0, 1) after the semicolon
split in LazyConnector::set_trx_characteristics. -/
def stripLeadingSpace : List Char → List Char
  | [] => []
  | x :: tl => if x = ' ' then tl else x :: tl

/-- One split step of LazyConnector::set_trx_characteristics: yields the
sub-statement sent this round and the remainder kept for the next round.
Without a semicolon the whole statement is sent and the remainder cleared;
otherwise the prefix up to the semicolon is sent and the remainder starts
after the semicolon, minus one leading space. -/
def trxSplitStep (stmt : List Char) : List Char × List Char :=
  match findCharIdx ';' stmt with
  | none => (stmt, [])
  | some semiPos => (stmt.take semiPos, stripLeadingSpace (stmt.drop (semiPos + 1)))

/-- The sub-statements sent by the SetTrxCharacteristics loop, driven by a
fuel bounded by the statement length. -/
def trxRoundsAux : Nat → List Char → List (List Char)
  | 0, _ => []
  | n + 1, s =>
      if s = [] then []
      else
        let split := trxSplitStep s
        split.1 :: trxRoundsAux n split.2

/-- The sub-statements sent by the SetTrxCharacteristics loop for a given
remembered transaction-characteristics statement. -/
def trxRounds (stmt : List Char) : List (List Char) :=
  trxRoundsAux stmt.length stmt

/-- The state of one LazyConnector instance: the current stage, the
accumulated failure, the retry and fallback flags, the remembered
transaction-characteristics statement, the fetched
required-connection-attributes result, the owning connection, the trace of
observable actions, and whether the terminal stage has completed. -/
structure LazyState where
  stage : Stage
  failed : Option Error
  retryConnect : Bool
  alreadyFallback : Bool
  inHandshake : Bool
  trxStmt : List Char
  fetcherOk : Bool
  conn : Connection
  log : List Action
  halted : Bool
deriving DecidableEq, Repr

/-- Modelled from the spec: the externally determined outcomes of the
sub-processors and queries a stage may push; one Input is consumed per step,
and the machine resumes only after the pushed processor has completed. -/
structure Input where
  connectError : Option Error
  connectPooled : Bool
  resetOk : Bool
  changeUserError : Option Error
  greetorError : Option Error
  greetorTransient : Bool
  queryOutcome : QueryOutcome
  poolStillOpen : Bool
  fetchOk : Bool
  enforceOk : Bool
deriving DecidableEq, Repr

/-- LazyConnector::connect: with no open server connection, pushes the
connect-or-reuse-from-pool processor (whose error callback forwards the
error to the caller-supplied callback); with a connection still open there
is nothing to do. -/
def LazyConnector.connect (inp : Input) (s : LazyState) : LazyState :=
  if s.conn.serverConnOpen = false then
    match inp.connectError with
    | none =>
        { s with stage := .Connected,
                 conn := { s.conn with serverConnOpen := true,
                                       serverGreeting := inp.connectPooled },
                 log := s.log ++ [.pushConnect] }
    | some e =>
        { s with stage := .Connected,
                 log := s.log ++ [.pushConnect, .reportError .Connect e] }
  else
    { s with stage := .Done }

/-- LazyConnector::connected: remembers the transaction-characteristics
statement, then decides between reset-connection (identity and attributes
match, outside a handshake), change-user (pooled connection, identity or
attributes differ), and the full server-greeting handshake.  The change-user
and greeting error callbacks forward the error to the caller-supplied
callback; a transient greeting error inside the connect-retry window only
arms the retry flag. -/
def LazyConnector.connected (inp : Input) (s : LazyState) : LazyState :=
  if s.conn.serverConnOpen = false then
    { s with stage := .Done }
  else
    let s := { s with trxStmt := s.conn.trxCharacteristics.getD s.trxStmt }
    if s.conn.serverGreeting then
      let s := { s with conn := { s.conn with clientGreetingSent := true } }
      if s.inHandshake = false ∧ s.conn.clientUsername = s.conn.serverUsername ∧
          s.conn.clientSentAttributes = s.conn.serverSentAttributes then
        { s with stage := .Authenticated,
                 conn := { s.conn with authenticated := true,
                                       serverConnOpen := inp.resetOk },
                 log := s.log ++ [.pushResetConnection] }
      else
        match inp.changeUserError with
        | none =>
            { s with stage := .Authenticated,
                     conn := { s.conn with authenticated := true },
                     log := s.log ++ [.pushChangeUser] }
        | some e =>
            { s with stage := .Authenticated,
                     conn := { s.conn with authenticated := false },
                     log := s.log ++ [.pushChangeUser, .reportError .Connected e] }
    else
      match inp.greetorError with
      | none =>
          { s with stage := .Authenticated,
                   conn := { s.conn with authenticated := true, serverGreeting := true },
                   log := s.log ++ [.pushServerGreetor] }
      | some e =>
          if inp.greetorTransient then
            { s with stage := .Authenticated,
                     retryConnect := true,
                     conn := { s.conn with authenticated := false, serverConnOpen := false },
                     log := s.log ++ [.pushServerGreetor] }
          else
            { s with stage := .Authenticated,
                     conn := { s.conn with authenticated := false, serverConnOpen := false },
                     log := s.log ++ [.pushServerGreetor, .reportError .Connected e] }

/-- LazyConnector::authenticated: on a failed or closed connection, either
schedules a connect retry (suspending on the retry timer) or terminates;
otherwise proceeds to session-variable replay. -/
def LazyConnector.authenticated (s : LazyState) : LazyState :=
  if s.conn.authenticated = false ∨ s.conn.serverConnOpen = false then
    if s.retryConnect then
      { s with retryConnect := false, stage := .Connect }
    else
      { s with stage := .Done }
  else
    { s with stage := .SetVars }

/-- LazyConnector::set_vars: builds the SET statement replaying the session
variables and sends it under a fail-on-error handler; with nothing to set
the phase is skipped without a round-trip. -/
def LazyConnector.set_vars (inp : Input) (s : LazyState) : LazyState :=
  let needSessionTrackers := s.conn.connectionSharing && s.conn.greetingFromRouter
  let stmt := set_vars_stmt needSessionTrackers s.conn.sysvars
  if stmt ≠ "" then
    { s with stage := .SetVarsDone,
             failed := failedQueryRun inp.queryOutcome s.failed,
             log := s.log ++ [.pushQuery stmt] }
  else
    { s with stage := .SetServerOption }

/-- LazyConnector::set_vars_done. -/
def LazyConnector.set_vars_done (s : LazyState) : LazyState :=
  { s with stage := .SetServerOption }

/-- LazyConnector::set_server_option: toggles the multi-statement option
when the client and server capabilities differ. -/
def LazyConnector.set_server_option (s : LazyState) : LazyState :=
  if s.conn.clientMultiStatements = s.conn.serverMultiStatements then
    { s with stage := .FetchSysVars }
  else
    { s with stage := .SetServerOptionDone,
             conn := { s.conn with serverMultiStatements := s.conn.clientMultiStatements },
             log := s.log ++ [.pushSetOption s.conn.clientMultiStatements] }

/-- LazyConnector::set_server_option_done. -/
def LazyConnector.set_server_option_done (s : LazyState) : LazyState :=
  if s.failed.isSome then
    { s with stage := .Done }
  else
    { s with stage := .FetchSysVars }

/-- LazyConnector::fetch_sys_vars: when connection sharing is possible,
queries the tracked variables missing from the store under the
capture-session-variables handler; with nothing missing the phase is
skipped. -/
def LazyConnector.fetch_sys_vars (inp : Input) (s : LazyState) : LazyState :=
  let stmt :=
    if s.conn.connectionSharingPossible then fetch_sys_vars_stmt s.conn.sysvars else ""
  if stmt ≠ "" then
    { s with stage := .FetchSysVarsDone,
             conn := ssvRun inp.queryOutcome s.conn,
             log := s.log ++ [.pushQuery stmt] }
  else
    { s with stage := .SetSchema }

/-- LazyConnector::fetch_sys_vars_done. -/
def LazyConnector.fetch_sys_vars_done (s : LazyState) : LazyState :=
  { s with stage := .SetSchema }

/-- LazyConnector::set_schema: switches the schema when the client schema is
set and differs from the server schema. -/
def LazyConnector.set_schema (s : LazyState) : LazyState :=
  if s.conn.clientSchema ≠ "" ∧ s.conn.clientSchema ≠ s.conn.serverSchema then
    { s with stage := .SetSchemaDone,
             conn := { s.conn with serverSchema := s.conn.clientSchema },
             log := s.log ++ [.pushInitSchema s.conn.clientSchema] }
  else
    { s with stage := .WaitGtidExecuted }

/-- LazyConnector::set_schema_done. -/
def LazyConnector.set_schema_done (s : LazyState) : LazyState :=
  if s.failed.isSome then
    { s with stage := .Done }
  else
    { s with stage := .WaitGtidExecuted }

/-- LazyConnector::wait_gtid_executed: when the session waits for its own
writes against a read-only target and a minimum GTID set is pending, sends
the wait statement under the assert-single-row-is-true handler with the
wait_for_my_writes timeout error; otherwise skips straight to the
transaction-characteristics replay. -/
def LazyConnector.wait_gtid_executed (inp : Input) (s : LazyState) : LazyState :=
  if s.conn.waitForMyWrites = true ∧ s.conn.expectedServerMode = .ReadOnly then
    if s.conn.gtidAtLeastExecuted ≠ "" then
      { s with stage := .WaitGtidExecutedDone,
               failed := isTrueRun ⟨0, "wait_for_my_writes timed out", "HY000"⟩
                           inp.queryOutcome s.failed,
               log := s.log ++
                 [.pushQuery (wait_gtid_stmt s.conn.gtidAtLeastExecuted
                                s.conn.waitForMyWritesTimeout)] }
    else
      { s with stage := .SetTrxCharacteristics }
  else
    { s with stage := .SetTrxCharacteristics }

/-- LazyConnector::wait_gtid_executed_done: a failed wait drives the
connection to pool-or-close; a successful wait proceeds to the
transaction-characteristics replay. -/
def LazyConnector.wait_gtid_executed_done (s : LazyState) : LazyState :=
  if s.failed.isSome then
    { s with stage := .PoolOrClose }
  else
    { s with stage := .SetTrxCharacteristics }

/-- LazyConnector::pool_or_close: returns the server connection to the pool,
closing it through a quit sub-processor when the pool is full. -/
def LazyConnector.pool_or_close (inp : Input) (s : LazyState) : LazyState :=
  let s := { s with stage := .FallbackToWrite,
                    conn := { s.conn with serverConnOpen := false } }
  if inp.poolStillOpen then s
  else { s with log := s.log ++ [.pushQuit] }

/-- LazyConnector::fallback_to_write: falls back to the primary only once
and only when the client asked for a read-only target; on fallback the
failure is cleared, the target intent switched to read-write and the stage
reset to Connect. -/
def LazyConnector.fallback_to_write (s : LazyState) : LazyState :=
  if s.alreadyFallback = true ∨ s.conn.expectedServerMode = .ReadWrite then
    { s with stage := .Done }
  else
    { s with stage := .Connect,
             alreadyFallback := true,
             failed := none,
             conn := { s.conn with expectedServerMode := .ReadWrite },
             log := s.log ++ [.fallbackRestart] }

/-- LazyConnector::set_trx_characteristics: replays the next pending
transaction-start sub-statement (splitting at the first semicolon) under a
fail-on-error handler; with nothing pending the phase is skipped. -/
def LazyConnector.set_trx_characteristics (inp : Input) (s : LazyState) : LazyState :=
  if s.trxStmt = [] then
    { s with stage := .FetchUserAttrs }
  else
    let split := trxSplitStep s.trxStmt
    { s with stage := .SetTrxCharacteristicsDone,
             trxStmt := split.2,
             failed := failedQueryRun inp.queryOutcome s.failed,
             log := s.log ++ [.pushQuery (String.mk split.1)] }

/-- LazyConnector::set_trx_characteristics_done: executes the next part when
there is more, regardless of whether the previous part failed. -/
def LazyConnector.set_trx_characteristics_done (s : LazyState) : LazyState :=
  if s.trxStmt = [] then
    { s with stage := .FetchUserAttrs }
  else
    { s with stage := .SetTrxCharacteristics }

/-- LazyConnector::fetch_user_attrs: fetches the required-connection
attributes only when policy enforcement is enabled. -/
def LazyConnector.fetch_user_attrs (inp : Input) (s : LazyState) : LazyState :=
  if s.conn.routerRequireEnforce = false then
    { s with stage := .SendAuthOk }
  else
    { s with stage := .FetchUserAttrsDone,
             fetcherOk := inp.fetchOk,
             log := s.log ++ [.pushFetchUserAttrs] }

/-- LazyConnector::fetch_user_attrs_done: a failed fetch or a failed policy
enforcement terminates with an access-denied failure. -/
def LazyConnector.fetch_user_attrs_done (inp : Input) (s : LazyState) : LazyState :=
  if s.fetcherOk = false then
    { s with failed := some ⟨1045, "Access denied", "28000"⟩, stage := .Done }
  else if inp.enforceOk = false then
    { s with failed := some ⟨1045, "Access denied", "28000"⟩, stage := .Done }
  else
    { s with stage := .SendAuthOk }

/-- LazyConnector::send_auth_ok: sends the success reply to the client only
when this reconciliation was triggered by an initial handshake. -/
def LazyConnector.send_auth_ok (s : LazyState) : LazyState :=
  if s.inHandshake = false then
    { s with stage := .Done }
  else
    { s with stage := .Done, log := s.log ++ [.sendOkToClient] }

/-- The terminal work of LazyConnector::process at Stage::Done: a stored
failure is reported through the caller-supplied error callback and the
authenticated flag cleared; the server-side sequence counter is reset. -/
def LazyConnector.done (s : LazyState) : LazyState :=
  let s : LazyState :=
    match s.failed with
    | some e =>
        { s with conn := { s.conn with authenticated := false },
                 log := s.log ++ [Action.reportError .Done e] }
    | none => s
  { s with conn := { s.conn with seqId := 255 }, halted := true }

/-- LazyConnector::process: dispatches one step of the machine on the
current stage; a halted machine is never stepped again. -/
def LazyConnector.process (inp : Input) (s : LazyState) : LazyState :=
  if s.halted then s
  else
    match s.stage with
    | .Connect => LazyConnector.connect inp s
    | .Connected => LazyConnector.connected inp s
    | .Authenticated => LazyConnector.authenticated s
    | .SetVars => LazyConnector.set_vars inp s
    | .SetVarsDone => LazyConnector.set_vars_done s
    | .SetServerOption => LazyConnector.set_server_option s
    | .SetServerOptionDone => LazyConnector.set_server_option_done s
    | .FetchSysVars => LazyConnector.fetch_sys_vars inp s
    | .FetchSysVarsDone => LazyConnector.fetch_sys_vars_done s
    | .SetSchema => LazyConnector.set_schema s
    | .SetSchemaDone => LazyConnector.set_schema_done s
    | .WaitGtidExecuted => LazyConnector.wait_gtid_executed inp s
    | .WaitGtidExecutedDone => LazyConnector.wait_gtid_executed_done s
    | .SetTrxCharacteristics => LazyConnector.set_trx_characteristics inp s
    | .SetTrxCharacteristicsDone => LazyConnector.set_trx_characteristics_done s
    | .FetchUserAttrs => LazyConnector.fetch_user_attrs inp s
    | .FetchUserAttrsDone => LazyConnector.fetch_user_attrs_done inp s
    | .SendAuthOk => LazyConnector.send_auth_ok s
    | .PoolOrClose => LazyConnector.pool_or_close inp s
    | .FallbackToWrite => LazyConnector.fallback_to_write s
    | .Done => LazyConnector.done s

/-- Drives the machine over a list of per-step inputs, as the owning
connection repeatedly invokes process. -/
def run (s : LazyState) (inputs : List Input) : LazyState :=
  inputs.foldl (fun s inp => LazyConnector.process inp s) s

/-- Whether an action is an invocation of the caller-supplied error
callback. -/
def isReport : Action → Bool
  | .reportError _ _ => true
  | _ => false

/-- Number of invocations of the caller-supplied error callback in a
trace. -/
def reports (l : List Action) : Nat := l.countP isReport

/-- Whether an action is the fallback-to-primary restart. -/
def isFallback : Action → Bool
  | .fallbackRestart => true
  | _ => false

/-- Number of fallback-to-primary restarts in a trace. -/
def fallbacks (l : List Action) : Nat := l.countP isFallback

/-- A machine state at the start of one reconciliation attempt: stage
Connect, no failure, no retry or fallback yet, an empty trace. -/
def InitState (s : LazyState) : Prop :=
  s.stage = .Connect ∧ s.failed = none ∧ s.retryConnect = false ∧
    s.alreadyFallback = false ∧ s.log = [] ∧ s.halted = false

/-- Number of assignments for a given variable name in an assignment
list. -/
def countAssign (assigns : List (String × Value)) (k : String) : Nat :=
  assigns.countP (fun kv => kv.1 = k)

/-- A state from which the machine can only fall through to the terminal
stage without reporting again and without storing a failure: the states
reached right after one of the connect/authentication error callbacks has
fired. -/
def Doomed (s : LazyState) : Prop :=
  s.failed = none ∧ s.retryConnect = false ∧
    ((s.stage = .Connected ∧ s.conn.serverConnOpen = false) ∨
     (s.stage = .Authenticated ∧
       (s.conn.authenticated = false ∨ s.conn.serverConnOpen = false)) ∨
     s.stage = .Done)

/-- The step invariant of the error-reporting discipline: at most one
callback invocation per reconciliation, a second one impossible once one has
fired, no stored failure during the connect/authentication stages, the retry
flag only armed at the Authenticated stage, the fallback restart bounded by
the fallback flag, and on a halted machine with a stored failure exactly one
report, made at the terminal stage with the authenticated flag cleared. -/
def ReportInv (s : LazyState) : Prop :=
  fallbacks s.log ≤ (if s.alreadyFallback = true then 1 else 0) ∧
  reports s.log ≤ 1 ∧
  (s.halted = false → reports s.log = 1 → Doomed s) ∧
  ((s.stage = .Connect ∨ s.stage = .Connected ∨ s.stage = .Authenticated) →
    s.failed = none) ∧
  (s.retryConnect = true → s.stage = .Authenticated ∧ s.conn.authenticated = false) ∧
  (s.halted = true → ∀ e, s.failed = some e →
    reports s.log = 1 ∧ s.conn.authenticated = false ∧
      Action.reportError .Done e ∈ s.log) ∧
  (∀ st e, Action.reportError st e ∈ s.log →
    st = .Connect ∨ st = .Connected ∨ st = .Done)

/-- A minimal connection value used to exercise the machine on concrete
runs. -/
def exampleConn : Connection :=
  ⟨false, false, "u", "u", "", "", false, false, "", "", false, false, false,
   false, false, [], false, false, 0, "", .ReadOnly, none, false, 0⟩

/-- A machine state at the start of a reconciliation attempt against
exampleConn. -/
def exampleInit : LazyState :=
  ⟨.Connect, none, false, false, false, [], true, exampleConn, [], false⟩

/-- An input oracle on which every sub-processor succeeds. -/
def exampleInput : Input :=
  ⟨none, false, true, none, none, false, .ok, true, true, true⟩

/-- An input oracle on which the connect sub-processor fails. -/
def exampleConnectFailInput : Input :=
  ⟨some ⟨2003, "connect failed", "HY000"⟩, false, true, none, none, false, .ok,
   true, true, true⟩

theorem isTrue_on_row_rowCount (e : Error) (row : List Value) (st : IsTrueState) :
    (IsTrueHandler.on_row e row st).rowCount = st.rowCount + 1 := by
  cases row with
  | nil => rfl
  | cons h t =>
      cases h with
      | none => rfl
      | some v =>
          simp only [IsTrueHandler.on_row]
          split <;> rfl

theorem isTrue_fold_rowCount (e : Error) (rows : List (List Value)) (st : IsTrueState) :
    (rows.foldl (fun st row => IsTrueHandler.on_row e row st) st).rowCount =
      st.rowCount + rows.length := by
  induction rows generalizing st with
  | nil => simp
  | cons r rs ih =>
      simp only [List.foldl_cons, ih, isTrue_on_row_rowCount, List.length_cons]
      omega

/-- C3 (amended): the assert-single-row-is-true handler leaves the machine
unfailed exactly when the resultset has exactly 1 column and exactly 1 row
whose first field is non-NULL and equal to the literal "1"; every other
shape sets the failure state, with a specific error per cause, where the
zero-rows and more-than-one-row causes share the same "Too many rows"
error: columns not equal to 1, a row with no fields, a NULL field, a row
count different from 1, and a non-"1" value (the last using the
caller-supplied error). -/
theorem is_true_handler_shape (e : Error) (cols : Nat) (rows : List (List Value)) :
    (isTrueRun e (.resultset cols rows) none = none ↔
      (cols = 1 ∧ ∃ tl, rows = [some "1" :: tl]))
    ∧ (cols ≠ 1 → ∀ tl, isTrueRun e (.resultset cols [some "1" :: tl]) none =
        some ⟨0, "Too many columns", "HY000"⟩)
    ∧ isTrueRun e (.resultset 1 [[]]) none = some ⟨0, "No fields", "HY000"⟩
    ∧ (∀ tl, isTrueRun e (.resultset 1 [none :: tl]) none =
        some ⟨0, "Expected integer, got NULL", "HY000"⟩)
    ∧ isTrueRun e (.resultset cols []) none = some ⟨0, "Too many rows", "HY000"⟩
    ∧ (∀ r1 r2 rs, isTrueRun e (.resultset cols (r1 :: r2 :: rs)) none =
        some ⟨0, "Too many rows", "HY000"⟩)
    ∧ (∀ v tl, v ≠ "1" → isTrueRun e (.resultset 1 [some v :: tl]) none = some e) := by
  refine ⟨?_, ?_, ?_, ?_, ?_, ?_, ?_⟩
  · match rows with
    | [] =>
        simp [isTrueRun, IsTrueHandler.on_row_end, IsTrueHandler.on_column_count]
        split <;> simp
    | [r] =>
        have hone : (IsTrueHandler.on_row e r
            (IsTrueHandler.on_column_count cols ⟨0, none⟩)).rowCount = 1 := by
          rw [isTrue_on_row_rowCount]
          simp [IsTrueHandler.on_column_count]
          split <;> rfl
        constructor
        · intro h
          simp only [isTrueRun, List.foldl_cons, List.foldl_nil] at h
          rw [IsTrueHandler.on_row_end] at h
          rw [hone] at h
          simp only [ne_eq, not_true_eq_false, if_neg, reduceIte] at h
          by_cases hc : cols = 1
          · subst hc
            refine ⟨rfl, ?_⟩
            match r with
            | [] => simp [IsTrueHandler.on_row, IsTrueHandler.on_column_count] at h
            | none :: tl => simp [IsTrueHandler.on_row, IsTrueHandler.on_column_count] at h
            | some v :: tl =>
                simp only [IsTrueHandler.on_row, IsTrueHandler.on_column_count] at h
                by_cases hv : v = "1"
                · exact ⟨tl, by rw [hv]⟩
                · simp [hv] at h
          · exfalso
            have hcc : (IsTrueHandler.on_column_count cols
                (⟨0, none⟩ : IsTrueState)).failed = some ⟨0, "Too many columns", "HY000"⟩ := by
              simp [IsTrueHandler.on_column_count, hc]
            match r with
            | [] => simp [IsTrueHandler.on_row] at h
            | none :: tl => simp [IsTrueHandler.on_row] at h
            | some v :: tl =>
                simp only [IsTrueHandler.on_row] at h
                by_cases hv : v = "1"
                · simp [hv, hcc] at h
                · simp [hv] at h
        · rintro ⟨hc, tl, h⟩
          subst hc
          have hr : r = some "1" :: tl := by simpa using h
          subst hr
          simp [isTrueRun, IsTrueHandler.on_row, IsTrueHandler.on_column_count,
            IsTrueHandler.on_row_end]
    | r1 :: r2 :: rs =>
        have hcnt : ((r1 :: r2 :: rs).foldl
            (fun st row => IsTrueHandler.on_row e row st)
            (IsTrueHandler.on_column_count cols ⟨0, none⟩)).rowCount =
              rs.length + 2 := by
          rw [isTrue_fold_rowCount]
          simp [IsTrueHandler.on_column_count]
          split <;> simp
        constructor
        · intro h
          simp only [isTrueRun] at h
          rw [IsTrueHandler.on_row_end] at h
          rw [hcnt] at h
          simp at h
        · rintro ⟨_, tl, h⟩
          simp at h
  · intro hc tl
    simp [isTrueRun, IsTrueHandler.on_row, IsTrueHandler.on_column_count, hc,
      IsTrueHandler.on_row_end]
  · simp [isTrueRun, IsTrueHandler.on_row, IsTrueHandler.on_column_count,
      IsTrueHandler.on_row_end]
  · intro tl
    simp [isTrueRun, IsTrueHandler.on_row, IsTrueHandler.on_column_count,
      IsTrueHandler.on_row_end]
  · simp only [isTrueRun, List.foldl_nil]
    rw [IsTrueHandler.on_row_end]
    simp [IsTrueHandler.on_column_count]
    split <;> simp
  · intro r1 r2 rs
    have hcnt : ((r1 :: r2 :: rs).foldl
        (fun st row => IsTrueHandler.on_row e row st)
        (IsTrueHandler.on_column_count cols ⟨0, none⟩)).rowCount =
          rs.length + 2 := by
      rw [isTrue_fold_rowCount]
      simp [IsTrueHandler.on_column_count]
      split <;> simp
    simp only [isTrueRun]
    rw [IsTrueHandler.on_row_end, hcnt]
    simp
  · intro v tl hv
    simp [isTrueRun, IsTrueHandler.on_row, IsTrueHandler.on_column_count, hv,
      IsTrueHandler.on_row_end]

/-- C3 (counterexample): the claim promises a distinct error per failure
cause, but the zero-rows cause and the more-than-one-row cause produce the
very same "Too many rows" error value. -/
theorem is_true_handler_duplicate_error :
    isTrueRun ⟨0, "cond", "HY000"⟩ (.resultset 1 []) none =
      isTrueRun ⟨0, "cond", "HY000"⟩ (.resultset 1 [[some "1"], [some "1"]]) none
    ∧ isTrueRun ⟨0, "cond", "HY000"⟩ (.resultset 1 []) none =
      some ⟨0, "Too many rows", "HY000"⟩ := by
  constructor <;> rfl

theorem is_true_handler_shape_witness :
    isTrueRun ⟨0, "cond", "HY000"⟩ (.resultset 2 [some "1" :: []]) none =
      some ⟨0, "Too many columns", "HY000"⟩
    ∧ isTrueRun ⟨0, "cond", "HY000"⟩ (.resultset 1 [some "0" :: []]) none =
      some ⟨0, "cond", "HY000"⟩ :=
  ⟨(is_true_handler_shape ⟨0, "cond", "HY000"⟩ 2 [[some "1"]]).2.1 (by decide) [],
   (is_true_handler_shape ⟨0, "cond", "HY000"⟩ 1 [[some "0"]]).2.2.2.2.2.2 "0" []
     (by decide)⟩

theorem ssv_on_row_sticky (row : List Value) (st : SSVState)
    (h : st.somethingFailed = true) :
    SelectSessionVariablesHandler.on_row row st = st := by
  simp [SelectSessionVariablesHandler.on_row, h]

theorem ssv_fold_sticky (rows : List (List Value)) (st : SSVState)
    (h : st.somethingFailed = true) :
    rows.foldl (fun st row => SelectSessionVariablesHandler.on_row row st) st = st := by
  induction rows with
  | nil => rfl
  | cons r rs ih => rw [List.foldl_cons, ssv_on_row_sticky r st h, ih]

theorem ssv_fold_bad_row (rows : List (List Value)) (st : SSVState)
    (h : ∃ r ∈ rows, ∃ rest, r = none :: rest) :
    (rows.foldl (fun st row => SelectSessionVariablesHandler.on_row row st)
      st).somethingFailed = true := by
  induction rows generalizing st with
  | nil =>
      rcases h with ⟨r, hr, _⟩
      simp at hr
  | cons a rs ih =>
      by_cases hf : st.somethingFailed = true
      · rw [List.foldl_cons, ssv_on_row_sticky a st hf, ssv_fold_sticky rs st hf]
        exact hf
      · rcases h with ⟨r, hr, rest, hshape⟩
        rcases List.mem_cons.mp hr with h1 | h2
        · subst h1
          subst hshape
          have hset : (SelectSessionVariablesHandler.on_row (none :: rest)
              st).somethingFailed = true := by
            simp [SelectSessionVariablesHandler.on_row, hf]
          rw [List.foldl_cons, ssv_fold_sticky rs _ hset]
          exact hset
        · rw [List.foldl_cons]
          exact ih _ ⟨r, h2, rest, hshape⟩

theorem ssv_on_row_clean (kv : String × Value) (st : SSVState)
    (h : st.somethingFailed = false) :
    SelectSessionVariablesHandler.on_row [some kv.1, kv.2] st =
      { st with sessionVariables := st.sessionVariables ++ [kv] } := by
  simp [SelectSessionVariablesHandler.on_row, h]

theorem ssv_fold_clean (rs : List (String × Value)) (st : SSVState)
    (h : st.somethingFailed = false) :
    (rs.map (fun kv => [some kv.1, kv.2])).foldl
        (fun st row => SelectSessionVariablesHandler.on_row row st) st =
      { st with sessionVariables := st.sessionVariables ++ rs } := by
  induction rs generalizing st with
  | nil => simp
  | cons kv rest ih =>
      rw [List.map_cons, List.foldl_cons, ssv_on_row_clean kv st h]
      rw [ih _ (by simp [h])]
      simp

/-- C8: the capture-session-variables handler never sets the machine's
failure state: the FetchSysVars step preserves the stored failure for every
query outcome; a column count other than 2, a row whose name column is
NULL, an unexpected OK or a server error only flag the connection as
no-longer-shareable and leave the shared variable store untouched; a clean
completion moves every captured (name, value) pair into the shared
system-variable store. -/
theorem capture_session_vars_degrades_only (inp : Input) (s : LazyState)
    (conn : Connection) :
    (s.halted = false → s.stage = .FetchSysVars →
      (LazyConnector.process inp s).failed = s.failed)
    ∧ (∀ cols rows, cols ≠ 2 →
        ssvRun (.resultset cols rows) conn = { conn with someStateChanged := true })
    ∧ (∀ rows, (∃ r ∈ rows, ∃ rest, r = none :: rest) →
        ssvRun (.resultset 2 rows) conn = { conn with someStateChanged := true })
    ∧ ssvRun .ok conn = { conn with someStateChanged := true }
    ∧ (∀ e, ssvRun (.serverErr e) conn = { conn with someStateChanged := true })
    ∧ (∀ rs : List (String × Value),
        ssvRun (.resultset 2 (rs.map (fun kv => [some kv.1, kv.2]))) conn =
          { conn with sysvars :=
              rs.foldl (fun sv kv => svSet sv kv.1 kv.2) conn.sysvars }) := by
  refine ⟨?_, ?_, ?_, rfl, fun _ => rfl, ?_⟩
  · intro hh hst
    simp only [LazyConnector.process, hh, hst, Bool.false_eq_true, if_false,
      LazyConnector.fetch_sys_vars]
    split <;> split <;> rfl
  · intro cols rows hcols
    have hst : (SelectSessionVariablesHandler.on_column_count cols
        ⟨0, false, []⟩).somethingFailed = true := by
      simp [SelectSessionVariablesHandler.on_column_count, hcols]
    simp only [ssvRun]
    rw [ssv_fold_sticky rows _ hst]
    simp [SelectSessionVariablesHandler.on_row_end, hst]
  · intro rows hbad
    have hflag := ssv_fold_bad_row rows
      (SelectSessionVariablesHandler.on_column_count 2 ⟨0, false, []⟩) hbad
    simp only [ssvRun]
    simp [SelectSessionVariablesHandler.on_row_end, hflag]
  · intro rs
    have hcc : SelectSessionVariablesHandler.on_column_count 2 ⟨0, false, []⟩ =
        ⟨2, false, []⟩ := by
      simp [SelectSessionVariablesHandler.on_column_count]
    simp only [ssvRun]
    rw [hcc, ssv_fold_clean rs ⟨2, false, []⟩ rfl]
    simp [SelectSessionVariablesHandler.on_row_end]

theorem capture_session_vars_degrades_only_witness :
    ssvRun (.resultset 3 [[some "a", some "b", some "c"]])
        ⟨true, true, "u", "u", "", "", false, true, "", "", false, false, true,
         true, true, [], false, false, 0, "", .ReadOnly, none, false, 0⟩ =
      { (⟨true, true, "u", "u", "", "", false, true, "", "", false, false, true,
         true, true, [], false, false, 0, "", .ReadOnly, none, false, 0⟩ :
          Connection) with someStateChanged := true }
    ∧ ssvRun (.resultset 2 [[some "sql_mode", some "STRICT"]])
        ⟨true, true, "u", "u", "", "", false, true, "", "", false, false, true,
         true, true, [], false, false, 0, "", .ReadOnly, none, false, 0⟩ =
      { (⟨true, true, "u", "u", "", "", false, true, "", "", false, false, true,
         true, true, [], false, false, 0, "", .ReadOnly, none, false, 0⟩ :
          Connection) with sysvars := [("sql_mode", some "STRICT")] } := by
  constructor
  · exact (capture_session_vars_degrades_only
      ⟨none, false, true, none, none, false, .ok, true, true, true⟩
      ⟨.FetchSysVars, none, false, false, false, [], true,
        ⟨true, true, "u", "u", "", "", false, true, "", "", false, false, true,
         true, true, [], false, false, 0, "", .ReadOnly, none, false, 0⟩, [], false⟩
      ⟨true, true, "u", "u", "", "", false, true, "", "", false, false, true,
       true, true, [], false, false, 0, "", .ReadOnly, none, false, 0⟩).2.1
      3 [[some "a", some "b", some "c"]] (by decide)
  · have h := (capture_session_vars_degrades_only
      ⟨none, false, true, none, none, false, .ok, true, true, true⟩
      ⟨.FetchSysVars, none, false, false, false, [], true,
        ⟨true, true, "u", "u", "", "", false, true, "", "", false, false, true,
         true, true, [], false, false, 0, "", .ReadOnly, none, false, 0⟩, [], false⟩
      ⟨true, true, "u", "u", "", "", false, true, "", "", false, false, true,
       true, true, [], false, false, 0, "", .ReadOnly, none, false, 0⟩).2.2.2.2.2
      [("sql_mode", some "STRICT")]
    simpa [svSet, svFind] using h

theorem countAssign_append (l1 l2 : List (String × Value)) (k : String) :
    countAssign (l1 ++ l2) k = countAssign l1 k + countAssign l2 k :=
  List.countP_append _ _ _

theorem countP_filter_of_imp (l : List α) (p q : α → Bool)
    (h : ∀ a, p a = true → q a = true) :
    (l.filter q).countP p = l.countP p := by
  induction l with
  | nil => rfl
  | cons a t ih =>
      by_cases hq : q a = true
      · simp [List.filter_cons, hq, List.countP_cons, ih]
      · have hp : p a = false := by
          cases hpa : p a
          · rfl
          · exact absurd (h a hpa) hq
        simp [List.filter_cons, hq, List.countP_cons, hp, ih]

theorem countAssign_loop_other (sv : SystemVariables) (k : String)
    (h1 : k ≠ "session_track_system_variables") (h2 : k ≠ "statement_id") :
    countAssign (setVarsLoop sv) k = countAssign sv k := by
  refine countP_filter_of_imp sv _ _ ?_
  intro a ha
  simp only [decide_eq_true_eq] at ha ⊢
  subst ha
  exact ⟨h1, h2⟩

theorem countAssign_loop_skip (sv : SystemVariables) (k : String)
    (h : k = "session_track_system_variables" ∨ k = "statement_id") :
    countAssign (setVarsLoop sv) k = 0 := by
  rw [countAssign, List.countP_eq_zero]
  intro kv hmem
  have hp := (List.mem_filter.mp hmem).2
  simp only [decide_eq_true_eq] at hp
  rcases h with h | h <;> subst h <;> simp [hp.1, hp.2]

theorem countAssign_single_other (k k' : String) (v : Value) (c : Prop)
    [Decidable c] (h : k' ≠ k) :
    countAssign (if c then [(k', v)] else []) k = 0 := by
  split <;> simp [countAssign, List.countP_cons, h]

theorem countAssign_single_same (k : String) (v : Value) (c : Prop) [Decidable c] :
    countAssign (if c then [(k, v)] else []) k = if c then 1 else 0 := by
  split <;> simp [countAssign, List.countP_cons]

theorem countAssign_head (need : Bool) (sv : SystemVariables) (k : String) :
    countAssign (setVarsHead need sv) k =
      if k = "session_track_system_variables" then
        (if need = true then 1
         else if svGet sv "session_track_system_variables" = none then 0 else 1)
      else 0 := by
  cases need <;>
    rcases hg : svGet sv "session_track_system_variables" with _ | v <;>
      by_cases hk : k = "session_track_system_variables"
  all_goals
    first
      | (subst hk; simp [setVarsHead, hg, countAssign, List.countP_cons])
      | simp [setVarsHead, hg, countAssign, List.countP_cons, hk, Ne.symm hk]

theorem countAssign_tail (need : Bool) (sv : SystemVariables) (k : String) :
    countAssign (setVarsTail need sv) k =
      if need = true ∧ svGet sv k = none ∧
          (k = "session_track_gtids" ∨ k = "session_track_transaction_info" ∨
           k = "session_track_state_change") then 1 else 0 := by
  cases need
  · simp [setVarsTail, countAssign]
  · by_cases h1 : k = "session_track_gtids"
    · subst h1
      rw [setVarsTail, if_pos rfl, countAssign_append, countAssign_append,
        countAssign_single_same, countAssign_single_other _ _ _ _ (by decide),
        countAssign_single_other _ _ _ _ (by decide)]
      by_cases hg : svGet sv "session_track_gtids" = none <;> simp [hg]
    · by_cases h2 : k = "session_track_transaction_info"
      · subst h2
        rw [setVarsTail, if_pos rfl, countAssign_append, countAssign_append,
          countAssign_single_other _ _ _ _ (by decide), countAssign_single_same,
          countAssign_single_other _ _ _ _ (by decide)]
        by_cases hg : svGet sv "session_track_transaction_info" = none <;> simp [hg]
      · by_cases h3 : k = "session_track_state_change"
        · subst h3
          rw [setVarsTail, if_pos rfl, countAssign_append, countAssign_append,
            countAssign_single_other _ _ _ _ (by decide),
            countAssign_single_other _ _ _ _ (by decide), countAssign_single_same]
          by_cases hg : svGet sv "session_track_state_change" = none <;> simp [hg]
        · rw [setVarsTail, if_pos rfl, countAssign_append, countAssign_append,
            countAssign_single_other _ _ _ _ (fun h => h1 (Eq.symm h)),
            countAssign_single_other _ _ _ _ (fun h => h2 (Eq.symm h)),
            countAssign_single_other _ _ _ _ (fun h => h3 (Eq.symm h))]
          simp [h1, h2, h3]

theorem renderFrom_head (need : Bool) (sv : SystemVariables) :
    (setVarsHead need sv).foldl (fun q kv => set_session_var q kv.1 kv.2) "" =
      (if need then
        set_session_var_or_value "" sv "session_track_system_variables" (some "*")
      else
        match svGet sv "session_track_system_variables" with
        | none => ""
        | some v => set_session_var "" "session_track_system_variables" (some v)) := by
  cases need <;>
    rcases hg : svGet sv "session_track_system_variables" with _ | v <;>
      simp [setVarsHead, set_session_var_or_value, hg]

theorem renderFrom_loop (sv : SystemVariables) (q : String) :
    (setVarsLoop sv).foldl (fun q kv => set_session_var q kv.1 kv.2) q =
      sv.foldl
        (fun q kv =>
          if kv.1 = "session_track_system_variables" ∨ kv.1 = "statement_id" then q
          else set_session_var q kv.1 kv.2) q := by
  induction sv generalizing q with
  | nil => rfl
  | cons kv rest ih =>
      by_cases h : kv.1 = "session_track_system_variables" ∨ kv.1 = "statement_id"
      · have hq : ¬(kv.1 ≠ "session_track_system_variables" ∧ kv.1 ≠ "statement_id") := by
          tauto
        simp only [setVarsLoop, List.filter_cons, List.foldl_cons]
        rw [if_neg (by simpa using hq), if_pos h]
        exact ih q
      · have hq : kv.1 ≠ "session_track_system_variables" ∧ kv.1 ≠ "statement_id" := by
          tauto
        simp only [setVarsLoop, List.filter_cons, List.foldl_cons]
        rw [if_pos (by simpa using hq), List.foldl_cons, if_neg h]
        exact ih _

theorem renderFrom_tail (need : Bool) (sv : SystemVariables) (q : String) :
    (setVarsTail need sv).foldl (fun q kv => set_session_var q kv.1 kv.2) q =
      (if need then
        set_session_var_if_not_set
          (set_session_var_if_not_set
            (set_session_var_if_not_set q sv "session_track_gtids" (some "OWN_GTID"))
            sv "session_track_transaction_info" (some "CHARACTERISTICS"))
          sv "session_track_state_change" (some "ON")
      else q) := by
  cases need
  · rfl
  · by_cases h1 : svGet sv "session_track_gtids" = none <;>
      by_cases h2 : svGet sv "session_track_transaction_info" = none <;>
        by_cases h3 : svGet sv "session_track_state_change" = none <;>
          simp [setVarsTail, set_session_var_if_not_set, h1, h2, h3]

theorem set_vars_stmt_eq_render (need : Bool) (sv : SystemVariables) :
    renderAssigns (setVarsAssigns need sv) = set_vars_stmt need sv := by
  rw [renderAssigns, setVarsAssigns, List.foldl_append, List.foldl_append]
  rw [renderFrom_head, renderFrom_loop, renderFrom_tail]
  rfl

theorem set_session_var_ne_empty (q : String) (k : String) (v : Value) :
    set_session_var q k v ≠ "" := by
  intro h
  have hlen := congrArg String.length h
  rw [set_session_var, String.length_append, String.length_append,
    String.length_append, String.length_append] at hlen
  have h10 : ("@@SESSION." : String).length = 10 := rfl
  have h0 : ("" : String).length = 0 := rfl
  rw [h10, h0] at hlen
  omega

theorem renderFrom_ne_empty (l : List (String × Value)) (q : String) (h : q ≠ "") :
    l.foldl (fun q kv => set_session_var q kv.1 kv.2) q ≠ "" := by
  induction l generalizing q with
  | nil => exact h
  | cons kv rest ih =>
      rw [List.foldl_cons]
      exact ih _ (set_session_var_ne_empty _ _ _)

theorem renderAssigns_eq_empty_iff (l : List (String × Value)) :
    renderAssigns l = "" ↔ l = [] := by
  cases l with
  | nil => simp [renderAssigns]
  | cons kv rest =>
      simp only [renderAssigns, List.foldl_cons]
      constructor
      · intro h
        exact absurd h (renderFrom_ne_empty rest _ (set_session_var_ne_empty _ _ _))
      · intro h
        simp at h

/-- C4 (amended): for every variable mapping V the SET statement built by
set_vars contains exactly one assignment per entry of V except the read-only
pseudo-variable statement_id and except a session_track_system_variables
entry whose stored value is NULL (such an entry is indistinguishable from an
absent one: it is dropped when session trackers are not needed and replaced
by the "*" default when they are), plus the injected tracking-variable
assignments; and when the resulting statement is empty no query is sent at
all: the stage moves directly to SetServerOption without a round-trip. -/
theorem set_vars_assignment_counts (need : Bool) (sysvars : SystemVariables)
    (k : String) :
    (k ≠ "session_track_system_variables" → k ≠ "statement_id" →
     k ≠ "session_track_gtids" → k ≠ "session_track_transaction_info" →
     k ≠ "session_track_state_change" →
      countAssign (setVarsAssigns need sysvars) k = countAssign sysvars k)
    ∧ countAssign (setVarsAssigns need sysvars) "statement_id" = 0
    ∧ countAssign (setVarsAssigns need sysvars) "session_track_system_variables" =
        (if need = true then 1
         else if svGet sysvars "session_track_system_variables" = none then 0 else 1)
    ∧ ((k = "session_track_gtids" ∨ k = "session_track_transaction_info" ∨
        k = "session_track_state_change") →
        countAssign (setVarsAssigns need sysvars) k =
          countAssign sysvars k +
            (if need = true ∧ svGet sysvars k = none then 1 else 0))
    ∧ renderAssigns (setVarsAssigns need sysvars) = set_vars_stmt need sysvars
    ∧ (setVarsAssigns need sysvars = [] ↔ set_vars_stmt need sysvars = "")
    ∧ (∀ (inp : Input) (s : LazyState), s.halted = false → s.stage = .SetVars →
        (set_vars_stmt (s.conn.connectionSharing && s.conn.greetingFromRouter)
            s.conn.sysvars = "" →
          (LazyConnector.process inp s).stage = .SetServerOption ∧
          (LazyConnector.process inp s).log = s.log)
        ∧ (set_vars_stmt (s.conn.connectionSharing && s.conn.greetingFromRouter)
            s.conn.sysvars ≠ "" →
          (LazyConnector.process inp s).stage = .SetVarsDone ∧
          (LazyConnector.process inp s).log = s.log ++
            [.pushQuery (set_vars_stmt
              (s.conn.connectionSharing && s.conn.greetingFromRouter)
              s.conn.sysvars)])) := by
  refine ⟨?_, ?_, ?_, ?_, set_vars_stmt_eq_render need sysvars, ?_, ?_⟩
  · intro h1 h2 h3 h4 h5
    rw [setVarsAssigns, countAssign_append, countAssign_append,
      countAssign_head, countAssign_loop_other sysvars k h1 h2, countAssign_tail]
    simp [h1, h2, h3, h4, h5]
  · rw [setVarsAssigns, countAssign_append, countAssign_append,
      countAssign_head, countAssign_loop_skip sysvars _ (Or.inr rfl), countAssign_tail]
    simp
  · rw [setVarsAssigns, countAssign_append, countAssign_append,
      countAssign_head, countAssign_loop_skip sysvars _ (Or.inl rfl), countAssign_tail]
    simp
  · intro hk
    have h1 : k ≠ "session_track_system_variables" := by
      rcases hk with h | h | h <;> subst h <;> decide
    have h2 : k ≠ "statement_id" := by
      rcases hk with h | h | h <;> subst h <;> decide
    rw [setVarsAssigns, countAssign_append, countAssign_append,
      countAssign_head, countAssign_loop_other sysvars k h1 h2, countAssign_tail]
    simp only [if_neg (by simp [h1] : ¬ k = "session_track_system_variables")]
    by_cases hn : need = true ∧ svGet sysvars k = none
    · simp [hn, hk]
    · simp only [if_neg (by tauto :
        ¬(need = true ∧ svGet sysvars k = none ∧
          (k = "session_track_gtids" ∨ k = "session_track_transaction_info" ∨
           k = "session_track_state_change"))), if_neg hn]
      omega
  · rw [← set_vars_stmt_eq_render]
    exact (renderAssigns_eq_empty_iff _).symm
  · intro inp s hh hst
    constructor
    · intro hempty
      simp only [LazyConnector.process, hh, Bool.false_eq_true, if_false, hst]
      rw [LazyConnector.set_vars]
      rw [if_neg (by simp [hempty])]
      exact ⟨rfl, rfl⟩
    · intro hne
      simp only [LazyConnector.process, hh, Bool.false_eq_true, if_false, hst]
      rw [LazyConnector.set_vars]
      rw [if_pos hne]
      exact ⟨rfl, rfl⟩

/-- C4 (counterexample): a mapping V holding session_track_system_variables
with a NULL value is an entry other than statement_id, yet the generated
statement contains no assignment for it: the claimed exactly-one-assignment
property fails (here with session trackers not needed, so no injected
assignments exist either and the whole statement is empty). -/
theorem set_vars_null_tracker_entry_counterexample :
    ("session_track_system_variables", (none : Value)) ∈
        ([("session_track_system_variables", (none : Value))] : SystemVariables)
    ∧ ("session_track_system_variables" : String) ≠ "statement_id"
    ∧ countAssign (setVarsAssigns false [("session_track_system_variables", none)])
        "session_track_system_variables" = 0
    ∧ set_vars_stmt false [("session_track_system_variables", none)] = "" := by
  refine ⟨by decide, by decide, by decide, ?_⟩
  rfl

theorem set_vars_assignment_counts_witness :
    countAssign (setVarsAssigns false [("foo", some "x")]) "foo" =
      countAssign [("foo", some "x")] "foo"
    ∧ countAssign (setVarsAssigns true [("session_track_gtids", (none : Value))])
        "session_track_gtids" =
      countAssign [("session_track_gtids", (none : Value))] "session_track_gtids" + 1 := by
  constructor
  · exact (set_vars_assignment_counts false [("foo", some "x")] "foo").1
      (by decide) (by decide) (by decide) (by decide) (by decide)
  · have h := (set_vars_assignment_counts true
      [("session_track_gtids", (none : Value))] "session_track_gtids").2.2.2.1
      (Or.inl rfl)
    rw [h]
    rw [if_pos ⟨rfl, by rfl⟩]

/-- C5: when session-state tracking is needed, the generated SET statement
always places the session_track_system_variables assignment first, and each
of the three injected tracking variables is assigned its router default
exactly when the store holds no value for it; a client-set value for any of
these three is emitted unchanged by the replay loop. -/
theorem set_vars_tracking_injection (sysvars : SystemVariables) :
    ((setVarsAssigns true sysvars).head?.map Prod.fst =
      some "session_track_system_variables")
    ∧ (∀ kd : String × Value,
        kd ∈ [("session_track_gtids", (some "OWN_GTID" : Value)),
              ("session_track_transaction_info", some "CHARACTERISTICS"),
              ("session_track_state_change", some "ON")] →
        (kd ∈ setVarsTail true sysvars ↔ svGet sysvars kd.1 = none))
    ∧ (∀ k v, (k = "session_track_gtids" ∨ k = "session_track_transaction_info" ∨
          k = "session_track_state_change") →
        svGet sysvars k = some v →
          (k, some v) ∈ setVarsAssigns true sysvars ∧
          ∀ w, (k, w) ∉ setVarsTail true sysvars) := by
  refine ⟨?_, ?_, ?_⟩
  · rcases hg : svGet sysvars "session_track_system_variables" with _ | v <;>
      simp [setVarsAssigns, setVarsHead, hg]
  · intro kd hkd
    rcases List.mem_cons.mp hkd with h | hkd
    · subst h
      by_cases h1 : svGet sysvars "session_track_gtids" = none <;>
        simp only [setVarsTail, if_pos rfl] <;>
          split_ifs <;> simp_all
    · rcases List.mem_cons.mp hkd with h | hkd
      · subst h
        by_cases h2 : svGet sysvars "session_track_transaction_info" = none <;>
          simp only [setVarsTail, if_pos rfl] <;>
            split_ifs <;> simp_all
      · rcases List.mem_cons.mp hkd with h | hkd
        · subst h
          by_cases h3 : svGet sysvars "session_track_state_change" = none <;>
            simp only [setVarsTail, if_pos rfl] <;>
              split_ifs <;> simp_all
        · simp at hkd
  · intro k v hk hg
    have hmem : (k, some v) ∈ sysvars := by
      have hfind : (sysvars.find? (fun kv => kv.1 = k)).map Prod.snd = some (some v) := by
        rw [← svFind]
        rcases hf : svFind sysvars k with _ | w
        · rw [svGet, hf] at hg
          simp at hg
        · rw [svGet, hf] at hg
          simp at hg
          simp [hg]
      rcases hf2 : sysvars.find? (fun kv => kv.1 = k) with _ | kv0
      · rw [hf2] at hfind
        simp at hfind
      · rw [hf2] at hfind
        simp at hfind
        have hk0 : kv0.1 = k := by
          have := List.find?_some hf2
          simpa using this
        have hm := List.mem_of_find?_eq_some hf2
        have : kv0 = (k, some v) := by
          cases kv0
          simp_all
        rw [← this]
        exact hm
    constructor
    · have hloop : (k, some v) ∈ setVarsLoop sysvars := by
        rw [setVarsLoop, List.mem_filter]
        refine ⟨hmem, ?_⟩
        rcases hk with h | h | h <;> subst h <;> simp
      rw [setVarsAssigns]
      exact List.mem_append.mpr (Or.inl (List.mem_append.mpr (Or.inr hloop)))
    · intro w hw
      rw [setVarsTail, if_pos rfl] at hw
      rcases hk with h | h | h <;> subst h <;>
        rcases List.mem_append.mp hw with hw2 | hw2 <;>
          first
            | (rcases List.mem_append.mp hw2 with hw3 | hw3 <;> split_ifs at hw3 <;>
                simp_all)
            | (split_ifs at hw2 <;> simp_all)

theorem set_vars_tracking_injection_witness :
    ((setVarsAssigns true [("session_track_gtids", (some "X" : Value))]).head?.map
      Prod.fst = some "session_track_system_variables")
    ∧ ("session_track_gtids", (some "X" : Value)) ∈
        setVarsAssigns true [("session_track_gtids", (some "X" : Value))] := by
  constructor
  · exact (set_vars_tracking_injection [("session_track_gtids", some "X")]).1
  · exact ((set_vars_tracking_injection [("session_track_gtids", some "X")]).2.2
      "session_track_gtids" "X" (Or.inl rfl) rfl).1

theorem findCharIdx_not_mem (c : Char) (s : List Char) (h : c ∉ s) :
    findCharIdx c s = none := by
  induction s with
  | nil => rfl
  | cons x xs ih =>
      rw [findCharIdx]
      rw [if_neg (show ¬ x = c from
        fun hx => h (by rw [← hx]; exact List.mem_cons_self x xs))]
      rw [ih (fun hx => h (List.mem_cons_of_mem x hx))]
      rfl

theorem findCharIdx_lt_length (c : Char) (s : List Char) (i : Nat)
    (h : findCharIdx c s = some i) : i < s.length := by
  induction s generalizing i with
  | nil => simp [findCharIdx] at h
  | cons x xs ih =>
      rw [findCharIdx] at h
      split at h
      · simp at h
        simp only [List.length_cons]
        omega
      · rcases hf : findCharIdx c xs with _ | j
        · rw [hf] at h
          simp at h
        · rw [hf] at h
          simp at h
          have := ih j hf
          simp only [List.length_cons]
          omega

theorem findCharIdx_append_cons (c : Char) (a b : List Char) (h : c ∉ a) :
    findCharIdx c (a ++ c :: b) = some a.length := by
  induction a with
  | nil => simp [findCharIdx]
  | cons x xs ih =>
      rw [List.cons_append, findCharIdx]
      rw [if_neg (show ¬ x = c from
        fun hx => h (by rw [← hx]; exact List.mem_cons_self x xs))]
      rw [ih (fun hx => h (List.mem_cons_of_mem x hx))]
      rfl

theorem trxSplitStep_no_semi (s : List Char) (h : ';' ∉ s) :
    trxSplitStep s = (s, []) := by
  rw [trxSplitStep, findCharIdx_not_mem ';' s h]

theorem trxSplitStep_semi (a b : List Char) (h : ';' ∉ a) :
    trxSplitStep (a ++ ';' :: b) = (a, stripLeadingSpace b) := by
  rw [trxSplitStep, findCharIdx_append_cons ';' a b h]
  have htake : (a ++ ';' :: b).take a.length = a := List.take_left a (';' :: b)
  have hdrop : (a ++ ';' :: b).drop (a.length + 1) = b := by
    have hsplit : a ++ ';' :: b = (a ++ [';']) ++ b := by simp
    have hlen : (a ++ [';']).length = a.length + 1 := by simp
    rw [hsplit, ← hlen]
    exact List.drop_left _ _
  show ((a ++ ';' :: b).take a.length,
    stripLeadingSpace ((a ++ ';' :: b).drop (a.length + 1))) = (a, stripLeadingSpace b)
  rw [htake, hdrop]

theorem stripLeadingSpace_length (b : List Char) :
    (stripLeadingSpace b).length ≤ b.length := by
  cases b with
  | nil => simp [stripLeadingSpace]
  | cons x t =>
      rw [stripLeadingSpace]
      split <;> simp

theorem stripLeadingSpace_subset (b : List Char) (x : Char)
    (h : x ∈ stripLeadingSpace b) : x ∈ b := by
  cases b with
  | nil => simp [stripLeadingSpace] at h
  | cons y t =>
      rw [stripLeadingSpace] at h
      split at h
      · exact List.mem_cons_of_mem y h
      · exact h

theorem trxSplitStep_rem_lt (s : List Char) (h : s ≠ []) :
    (trxSplitStep s).2.length < s.length := by
  rw [trxSplitStep]
  rcases hf : findCharIdx ';' s with _ | i
  · simpa using List.length_pos.mpr h
  · have hi := findCharIdx_lt_length ';' s i hf
    have hd : (s.drop (i + 1)).length = s.length - (i + 1) := List.length_drop _ _
    have hstrip := stripLeadingSpace_length (s.drop (i + 1))
    simp only []
    omega

theorem trxRoundsAux_nil (n : Nat) : trxRoundsAux n [] = [] := by
  cases n <;> rfl

theorem trxRoundsAux_fuel (n : Nat) : ∀ (m : Nat) (s : List Char),
    s.length ≤ n → s.length ≤ m → trxRoundsAux n s = trxRoundsAux m s := by
  induction n with
  | zero =>
      intro m s hn _
      have hs : s = [] := by
        cases s with
        | nil => rfl
        | cons x t => simp at hn
      rw [hs, trxRoundsAux_nil, trxRoundsAux_nil]
  | succ n ih =>
      intro m s hn hm
      by_cases hs : s = []
      · rw [hs, trxRoundsAux_nil, trxRoundsAux_nil]
      · have hpos : 1 ≤ s.length := List.length_pos.mpr hs
        cases m with
        | zero => omega
        | succ m2 =>
            rw [trxRoundsAux, trxRoundsAux, if_neg hs, if_neg hs]
            have hrem := trxSplitStep_rem_lt s hs
            have heq := ih m2 (trxSplitStep s).2 (by omega) (by omega)
            show (trxSplitStep s).1 :: trxRoundsAux n (trxSplitStep s).2 =
              (trxSplitStep s).1 :: trxRoundsAux m2 (trxSplitStep s).2
            rw [heq]

theorem trxRounds_cons (s : List Char) (h : s ≠ []) :
    trxRounds s = (trxSplitStep s).1 :: trxRounds (trxSplitStep s).2 := by
  rw [trxRounds]
  cases s with
  | nil => exact absurd rfl h
  | cons x t =>
      rw [show ((x :: t) : List Char).length = t.length + 1 from rfl]
      rw [trxRoundsAux, if_neg h]
      have hrem := trxSplitStep_rem_lt (x :: t) h
      show (trxSplitStep (x :: t)).1 :: trxRoundsAux t.length (trxSplitStep (x :: t)).2 =
        (trxSplitStep (x :: t)).1 ::
          trxRoundsAux (trxSplitStep (x :: t)).2.length (trxSplitStep (x :: t)).2
      rw [trxRoundsAux_fuel t.length (trxSplitStep (x :: t)).2.length
        (trxSplitStep (x :: t)).2 (by simp only [List.length_cons] at hrem; omega) le_rfl]

theorem trxRounds_no_semi (s : List Char) (hs : ';' ∉ s) (h : s ≠ []) :
    trxRounds s = [s] := by
  rw [trxRounds_cons s h, trxSplitStep_no_semi s hs]
  rfl

theorem trxRoundsAux_length (n : Nat) : ∀ s : List Char,
    s.length ≤ n → (trxRoundsAux n s).length ≤ s.length := by
  induction n with
  | zero =>
      intro s hn
      simp [trxRoundsAux]
  | succ n ih =>
      intro s hn
      by_cases hs : s = []
      · simp [hs, trxRoundsAux_nil]
      · rw [trxRoundsAux, if_neg hs]
        have hrem := trxSplitStep_rem_lt s hs
        have hlen := ih (trxSplitStep s).2 (by omega)
        show ((trxSplitStep s).1 :: trxRoundsAux n (trxSplitStep s).2).length ≤ s.length
        simp only [List.length_cons]
        omega

/-- C6 (amended): replaying a transaction-characteristics statement
consisting of one sub-statement, a semicolon and a second sub-statement
that is non-empty after stripping one leading space produces exactly two
query round-trips, in original order, with one leading space after the
separator stripped; a statement without a semicolon produces exactly one
round-trip; and a failure of the first round-trip does not prevent the
second: the SetTrxCharacteristicsDone stage loops back to
SetTrxCharacteristics whenever more is pending, regardless of the stored
failure, and each SetTrxCharacteristics step on a non-empty statement sends
exactly the split-off sub-statement. -/
theorem trx_split_round_trips (a b : List Char) (inp : Input) (s : LazyState) :
    (';' ∉ a → ';' ∉ b → stripLeadingSpace b ≠ [] →
      trxRounds (a ++ ';' :: b) = [a, stripLeadingSpace b])
    ∧ (';' ∉ a → a ≠ [] → trxRounds a = [a])
    ∧ (∀ e, s.halted = false → s.stage = .SetTrxCharacteristicsDone →
        s.failed = some e → s.trxStmt ≠ [] →
        (LazyConnector.process inp s).stage = .SetTrxCharacteristics)
    ∧ (s.halted = false → s.stage = .SetTrxCharacteristics → s.trxStmt ≠ [] →
        (LazyConnector.process inp s).log =
          s.log ++ [.pushQuery (String.mk (trxSplitStep s.trxStmt).1)] ∧
        (LazyConnector.process inp s).trxStmt = (trxSplitStep s.trxStmt).2) := by
  refine ⟨?_, ?_, ?_, ?_⟩
  · intro ha hb hstrip
    have hne : a ++ ';' :: b ≠ [] := by simp
    rw [trxRounds_cons _ hne, trxSplitStep_semi a b ha]
    have hnosemi : ';' ∉ stripLeadingSpace b :=
      fun hx => hb (stripLeadingSpace_subset b ';' hx)
    rw [trxRounds_no_semi _ hnosemi hstrip]
  · intro ha hne
    exact trxRounds_no_semi a ha hne
  · intro e hh hst _ htrx
    simp only [LazyConnector.process, hh, Bool.false_eq_true, if_false, hst,
      LazyConnector.set_trx_characteristics_done]
    rw [if_neg htrx]
  · intro hh hst htrx
    simp only [LazyConnector.process, hh, Bool.false_eq_true, if_false, hst,
      LazyConnector.set_trx_characteristics]
    rw [if_neg htrx]
    exact ⟨rfl, rfl⟩

/-- C6 (counterexample): the statement "a;" contains a semicolon but
produces exactly one round-trip, not two: the part after the semicolon is
empty, so nothing is left to send. -/
theorem trx_single_semicolon_counterexample :
    (';' ∈ ("a;".data)) ∧ trxRounds ("a;".data) = [("a".data)] := by
  constructor
  · decide
  · rfl

theorem trx_split_round_trips_witness :
    trxRounds ("SET TRANSACTION READ ONLY; START TRANSACTION".data) =
      [("SET TRANSACTION READ ONLY".data), ("START TRANSACTION".data)] := by
  have h := (trx_split_round_trips ("SET TRANSACTION READ ONLY".data)
    (" START TRANSACTION".data)
    ⟨none, false, true, none, none, false, .ok, true, true, true⟩
    ⟨.Connect, none, false, false, false, [], true,
      ⟨true, true, "u", "u", "", "", false, true, "", "", false, false, true,
       true, true, [], false, false, 0, "", .ReadOnly, none, false, 0⟩, [], false⟩).1
    (by decide) (by decide) (by decide)
  exact h

/-- C10: every invocation of set_trx_characteristics on a non-empty
remembered statement strictly shortens it, clearing it when it has no
semicolon and otherwise erasing at least the prefix up to and including the
first semicolon; hence the SetTrxCharacteristics loop performs at most
length-many round-trips, and the done stage leaves the loop for
FetchUserAttrs exactly when nothing is pending. -/
theorem trx_loop_terminates (inp : Input) (s : LazyState) :
    (s.halted = false → s.stage = .SetTrxCharacteristics → s.trxStmt ≠ [] →
      (LazyConnector.process inp s).trxStmt.length < s.trxStmt.length
      ∧ (findCharIdx ';' s.trxStmt = none → (LazyConnector.process inp s).trxStmt = [])
      ∧ (∀ i, findCharIdx ';' s.trxStmt = some i →
          (LazyConnector.process inp s).trxStmt.length ≤ s.trxStmt.length - (i + 1)))
    ∧ (∀ t : List Char, (trxRounds t).length ≤ t.length)
    ∧ (s.halted = false → s.stage = .SetTrxCharacteristicsDone →
        (LazyConnector.process inp s).stage =
          (if s.trxStmt = [] then .FetchUserAttrs else .SetTrxCharacteristics)) := by
  refine ⟨?_, ?_, ?_⟩
  · intro hh hst htrx
    have hproc : (LazyConnector.process inp s).trxStmt = (trxSplitStep s.trxStmt).2 := by
      simp only [LazyConnector.process, hh, Bool.false_eq_true, if_false, hst,
        LazyConnector.set_trx_characteristics]
      rw [if_neg htrx]
    refine ⟨?_, ?_, ?_⟩
    · rw [hproc]
      exact trxSplitStep_rem_lt s.trxStmt htrx
    · intro hnone
      rw [hproc, trxSplitStep, hnone]
    · intro i hsome
      rw [hproc, trxSplitStep, hsome]
      have hd : (s.trxStmt.drop (i + 1)).length = s.trxStmt.length - (i + 1) :=
        List.length_drop _ _
      have hstrip := stripLeadingSpace_length (s.trxStmt.drop (i + 1))
      simp only []
      omega
  · intro t
    rw [trxRounds]
    exact trxRoundsAux_length t.length t le_rfl
  · intro hh hst
    simp only [LazyConnector.process, hh, Bool.false_eq_true, if_false, hst,
      LazyConnector.set_trx_characteristics_done]
    split <;> simp_all

theorem trx_loop_terminates_witness :
    (LazyConnector.process
        ⟨none, false, true, none, none, false, .ok, true, true, true⟩
        ⟨.SetTrxCharacteristics, none, false, false, false, ("a;b".data), true,
          ⟨true, true, "u", "u", "", "", false, true, "", "", false, false, true,
           true, true, [], false, false, 0, "", .ReadOnly, none, false, 0⟩,
          [], false⟩).trxStmt.length < ("a;b".data).length := by
  exact ((trx_loop_terminates
    ⟨none, false, true, none, none, false, .ok, true, true, true⟩
    ⟨.SetTrxCharacteristics, none, false, false, false, ("a;b".data), true,
      ⟨true, true, "u", "u", "", "", false, true, "", "", false, false, true,
       true, true, [], false, false, 0, "", .ReadOnly, none, false, 0⟩,
      [], false⟩).1 rfl rfl (by decide)).1

/-- C7: a GTID-wait query is issued if and only if wait_for_my_writes is
set, the expected server mode is read-only and the minimum GTID set is
non-empty; with a zero max-replication-lag the query is SELECT
GTID_SUBSET(...), otherwise SELECT NOT WAIT_FOR_EXECUTED_GTID_SET(..., lag);
a false result sets the "wait_for_my_writes timed out" failure, after which
the WaitGtidExecutedDone stage transitions to PoolOrClose; when no wait is
needed the stage skips directly to SetTrxCharacteristics. -/
theorem wait_gtid_query_iff (inp : Input) (s : LazyState) :
    (s.halted = false → s.stage = .WaitGtidExecuted →
      (s.conn.waitForMyWrites = true ∧ s.conn.expectedServerMode = .ReadOnly ∧
          s.conn.gtidAtLeastExecuted ≠ "" →
        (LazyConnector.process inp s).stage = .WaitGtidExecutedDone ∧
        (LazyConnector.process inp s).log = s.log ++
          [.pushQuery (wait_gtid_stmt s.conn.gtidAtLeastExecuted
            s.conn.waitForMyWritesTimeout)])
      ∧ (¬(s.conn.waitForMyWrites = true ∧ s.conn.expectedServerMode = .ReadOnly ∧
            s.conn.gtidAtLeastExecuted ≠ "") →
        (LazyConnector.process inp s).stage = .SetTrxCharacteristics ∧
        (LazyConnector.process inp s).log = s.log ∧
        (LazyConnector.process inp s).failed = s.failed))
    ∧ (∀ g, g ≠ "" → wait_gtid_stmt g 0 =
        "SELECT GTID_SUBSET(" ++ quoteWith '"' g ++ ", @@GLOBAL.gtid_executed)")
    ∧ (∀ g lag, lag ≠ 0 → wait_gtid_stmt g lag =
        "SELECT NOT WAIT_FOR_EXECUTED_GTID_SET(" ++ quoteWith '"' g ++ ", " ++
          toString lag ++ ")")
    ∧ (s.halted = false → s.stage = .WaitGtidExecuted → s.failed = none →
        s.conn.waitForMyWrites = true → s.conn.expectedServerMode = .ReadOnly →
        s.conn.gtidAtLeastExecuted ≠ "" →
        inp.queryOutcome = .resultset 1 [[some "0"]] →
        (LazyConnector.process inp s).failed =
          some ⟨0, "wait_for_my_writes timed out", "HY000"⟩)
    ∧ (s.halted = false → s.stage = .WaitGtidExecutedDone →
        ((s.failed.isSome → (LazyConnector.process inp s).stage = .PoolOrClose)
         ∧ (s.failed = none →
            (LazyConnector.process inp s).stage = .SetTrxCharacteristics))) := by
  refine ⟨?_, ?_, ?_, ?_, ?_⟩
  · intro hh hst
    constructor
    · rintro ⟨h1, h2, h3⟩
      simp only [LazyConnector.process, hh, Bool.false_eq_true, if_false, hst,
        LazyConnector.wait_gtid_executed]
      rw [if_pos ⟨h1, h2⟩, if_pos h3]
      exact ⟨rfl, rfl⟩
    · intro hneg
      simp only [LazyConnector.process, hh, Bool.false_eq_true, if_false, hst,
        LazyConnector.wait_gtid_executed]
      by_cases h12 : s.conn.waitForMyWrites = true ∧ s.conn.expectedServerMode = .ReadOnly
      · rw [if_pos h12]
        have h3 : ¬ s.conn.gtidAtLeastExecuted ≠ "" := by tauto
        rw [if_neg h3]
        exact ⟨rfl, rfl, rfl⟩
      · rw [if_neg h12]
        exact ⟨rfl, rfl, rfl⟩
  · intro g _
    rw [wait_gtid_stmt, if_pos rfl]
  · intro g lag hlag
    rw [wait_gtid_stmt, if_neg hlag]
  · intro hh hst hfail h1 h2 h3 hout
    simp only [LazyConnector.process, hh, Bool.false_eq_true, if_false, hst,
      LazyConnector.wait_gtid_executed]
    rw [if_pos ⟨h1, h2⟩, if_pos h3]
    rw [hout, hfail]
    rfl
  · intro hh hst
    constructor
    · intro hfail
      simp only [LazyConnector.process, hh, Bool.false_eq_true, if_false, hst,
        LazyConnector.wait_gtid_executed_done]
      rw [if_pos hfail]
    · intro hfail
      simp only [LazyConnector.process, hh, Bool.false_eq_true, if_false, hst,
        LazyConnector.wait_gtid_executed_done]
      rw [if_neg (by simp [hfail])]

theorem wait_gtid_query_iff_witness :
    (LazyConnector.process
        ⟨none, false, true, none, none, false, .resultset 1 [[some "0"]], true, true, true⟩
        ⟨.WaitGtidExecuted, none, false, false, false, [], true,
          ⟨true, true, "u", "u", "", "", false, true, "", "", false, false, true,
           true, true, [], false, true, 0, "G:1-3", .ReadOnly, none, false, 0⟩,
          [], false⟩).failed =
      some ⟨0, "wait_for_my_writes timed out", "HY000"⟩
    ∧ wait_gtid_stmt "G:1-3" 0 =
        "SELECT GTID_SUBSET(" ++ quoteWith '"' "G:1-3" ++ ", @@GLOBAL.gtid_executed)" := by
  constructor
  · exact (wait_gtid_query_iff
      ⟨none, false, true, none, none, false, .resultset 1 [[some "0"]], true, true, true⟩
      ⟨.WaitGtidExecuted, none, false, false, false, [], true,
        ⟨true, true, "u", "u", "", "", false, true, "", "", false, false, true,
         true, true, [], false, true, 0, "G:1-3", .ReadOnly, none, false, 0⟩,
        [], false⟩).2.2.2.1 rfl rfl rfl rfl rfl (by decide) rfl
  · exact (wait_gtid_query_iff
      ⟨none, false, true, none, none, false, .resultset 1 [[some "0"]], true, true, true⟩
      ⟨.WaitGtidExecuted, none, false, false, false, [], true,
        ⟨true, true, "u", "u", "", "", false, true, "", "", false, false, true,
         true, true, [], false, true, 0, "G:1-3", .ReadOnly, none, false, 0⟩,
        [], false⟩).2.1 "G:1-3" (by decide)

/-- C9: when a pooled server connection (one whose greeting is already
known) is reused outside an initial handshake and the client's username and
sent connection attributes both equal the server connection's, the
Connected stage pushes only a reset-connection sub-processor and marks the
connection authenticated, whatever the schemas are; and the SendAuthOk
stage sends the OK packet to the client exactly when the reconciliation was
triggered by an initial handshake, so in the reuse case no extra reply is
ever sent. -/
theorem reset_connection_fast_path (inp : Input) (s : LazyState) :
    (s.halted = false → s.stage = .Connected → s.conn.serverConnOpen = true →
     s.conn.serverGreeting = true → s.inHandshake = false →
     s.conn.clientUsername = s.conn.serverUsername →
     s.conn.clientSentAttributes = s.conn.serverSentAttributes →
      (LazyConnector.process inp s).log = s.log ++ [.pushResetConnection] ∧
      (LazyConnector.process inp s).conn.authenticated = true ∧
      (LazyConnector.process inp s).stage = .Authenticated)
    ∧ (s.halted = false → s.stage = .SendAuthOk →
        (((LazyConnector.process inp s).log = s.log ++ [.sendOkToClient] ↔
            s.inHandshake = true)
         ∧ (s.inHandshake = false → (LazyConnector.process inp s).log = s.log)
         ∧ (LazyConnector.process inp s).stage = .Done)) := by
  constructor
  · intro hh hst hopen hgreet hhs hu ha
    simp only [LazyConnector.process, hh, Bool.false_eq_true, if_false, hst,
      LazyConnector.connected]
    rw [if_neg (by simp [hopen])]
    simp only [hgreet, if_true]
    rw [if_pos ⟨hhs, hu, ha⟩]
    exact ⟨rfl, rfl, rfl⟩
  · intro hh hst
    cases hhs : s.inHandshake with
    | false =>
        simp only [LazyConnector.process, hh, Bool.false_eq_true, if_false, hst,
          LazyConnector.send_auth_ok, hhs, if_pos rfl]
        refine ⟨?_, fun _ => rfl, rfl⟩
        constructor
        · intro hlog
          exact absurd hlog (by simp)
        · intro hfalse
          simp at hfalse
    | true =>
        simp only [LazyConnector.process, hh, Bool.false_eq_true, if_false, hst,
          LazyConnector.send_auth_ok, hhs]
        rw [if_neg (by simp)]
        refine ⟨?_, ?_, rfl⟩
        · simp
        · intro hfalse
          simp at hfalse

theorem reset_connection_fast_path_witness :
    (LazyConnector.process
        ⟨none, false, true, none, none, false, .ok, true, true, true⟩
        ⟨.Connected, none, false, false, false, [], true,
          ⟨true, false, "u", "u", "attrs", "attrs", false, true, "client_db",
           "server_db", false, false, true, true, true, [], false, false, 0, "",
           .ReadOnly, none, false, 0⟩,
          [], false⟩).log = [Action.pushResetConnection]
    ∧ (LazyConnector.process
        ⟨none, false, true, none, none, false, .ok, true, true, true⟩
        ⟨.Connected, none, false, false, false, [], true,
          ⟨true, false, "u", "u", "attrs", "attrs", false, true, "client_db",
           "server_db", false, false, true, true, true, [], false, false, 0, "",
           .ReadOnly, none, false, 0⟩,
          [], false⟩).conn.authenticated = true := by
  have h := (reset_connection_fast_path
    ⟨none, false, true, none, none, false, .ok, true, true, true⟩
    ⟨.Connected, none, false, false, false, [], true,
      ⟨true, false, "u", "u", "attrs", "attrs", false, true, "client_db",
       "server_db", false, false, true, true, true, [], false, false, 0, "",
       .ReadOnly, none, false, 0⟩,
      [], false⟩).1 rfl rfl rfl rfl rfl rfl rfl
  exact ⟨h.1, h.2.1⟩

theorem process_halted (inp : Input) (s : LazyState) (h : s.halted = true) :
    LazyConnector.process inp s = s := by
  simp [LazyConnector.process, h]

theorem reports_zero_of_stage (s : LazyState)
    (hR1 : reports s.log ≤ 1)
    (hDoom : s.halted = false → reports s.log = 1 → Doomed s)
    (hh : s.halted = false)
    (h1 : s.stage ≠ .Connected) (h2 : s.stage ≠ .Authenticated) (h3 : s.stage ≠ .Done) :
    reports s.log = 0 := by
  by_contra hne
  have heq : reports s.log = 1 := by omega
  rcases hDoom hh heq with ⟨_, _, ⟨hd, _⟩ | ⟨hd, _⟩ | hd⟩
  exacts [h1 hd, h2 hd, h3 hd]

theorem retry_false_of_stage (s : LazyState)
    (hT : s.retryConnect = true → s.stage = .Authenticated ∧ s.conn.authenticated = false)
    (hnot : s.stage ≠ .Authenticated) : s.retryConnect = false := by
  cases hr : s.retryConnect
  · rfl
  · exact absurd (hT hr).1 hnot

theorem ReportInv_quiet (s s' : LazyState) (hInv : ReportInv s)
    (hrep0 : reports s.log = 0)
    (hlog : s'.log = s.log ∨
      ∃ a, s'.log = s.log ++ [a] ∧ isReport a = false ∧ isFallback a = false)
    (hhalt : s'.halted = false)
    (hretry : s'.retryConnect = false)
    (hfb : s'.alreadyFallback = s.alreadyFallback)
    (hearly : (s'.stage = .Connect ∨ s'.stage = .Connected ∨ s'.stage = .Authenticated) →
      s'.failed = none) :
    ReportInv s' := by
  obtain ⟨hFB, hR1, hDoom, hE, hT, hHalt, hTag⟩ := hInv
  have hfbeq : fallbacks s'.log = fallbacks s.log := by
    rcases hlog with h | ⟨a, ha, _, hnf⟩
    · rw [h]
    · rw [ha]
      simp [fallbacks, List.countP_append, List.countP_cons, hnf]
  have hrepeq : reports s'.log = reports s.log := by
    rcases hlog with h | ⟨a, ha, hnr, _⟩
    · rw [h]
    · rw [ha]
      simp [reports, List.countP_append, List.countP_cons, hnr]
  refine ⟨?_, ?_, ?_, hearly, ?_, ?_, ?_⟩
  · rw [hfbeq, hfb]
    exact hFB
  · rw [hrepeq]
    exact hR1
  · intro _ h1
    rw [hrepeq, hrep0] at h1
    simp at h1
  · intro hr
    rw [hretry] at hr
    exact Bool.noConfusion hr
  · intro hhh
    rw [hhalt] at hhh
    exact Bool.noConfusion hhh
  · intro st e hmem
    rcases hlog with h | ⟨a, ha, hnr, _⟩
    · exact hTag st e (h ▸ hmem)
    · rw [ha] at hmem
      rcases List.mem_append.mp hmem with hm | hm
      · exact hTag st e hm
      · have hae : Action.reportError st e = a := by simpa using hm
        rw [← hae] at hnr
        simp [isReport] at hnr

theorem ReportInv_to_done (s s' : LazyState) (hInv : ReportInv s)
    (hh : s.halted = false)
    (hlog : s'.log = s.log)
    (hhalt : s'.halted = false)
    (hretry : s'.retryConnect = false)
    (hfb : s'.alreadyFallback = s.alreadyFallback)
    (hstage : s'.stage = .Done)
    (hfail : s'.failed = s.failed) :
    ReportInv s' := by
  obtain ⟨hFB, hR1, hDoom, hE, hT, hHalt, hTag⟩ := hInv
  refine ⟨?_, ?_, ?_, ?_, ?_, ?_, ?_⟩
  · rw [hlog, hfb]
    exact hFB
  · rw [hlog]
    exact hR1
  · intro _ h1
    rw [hlog] at h1
    exact ⟨hfail.trans (hDoom hh h1).1, hretry, Or.inr (Or.inr hstage)⟩
  · intro hd
    rw [hstage] at hd
    rcases hd with hd | hd | hd <;> exact Stage.noConfusion hd
  · intro hr
    rw [hretry] at hr
    exact Bool.noConfusion hr
  · intro hhh
    rw [hhalt] at hhh
    exact Bool.noConfusion hhh
  · intro st e hmem
    exact hTag st e (hlog ▸ hmem)

theorem ReportInv_report (s s' : LazyState) (hInv : ReportInv s)
    (a : Action) (tag : Stage) (e : Error)
    (hrep0 : reports s.log = 0)
    (hlog : s'.log = s.log ++ [a, Action.reportError tag e])
    (hnr : isReport a = false) (hnf : isFallback a = false)
    (htag : tag = .Connect ∨ tag = .Connected ∨ tag = .Done)
    (hhalt : s'.halted = false)
    (hretry : s'.retryConnect = false)
    (hfb : s'.alreadyFallback = s.alreadyFallback)
    (hfail : s'.failed = none)
    (hdoomst : (s'.stage = .Connected ∧ s'.conn.serverConnOpen = false) ∨
      (s'.stage = .Authenticated ∧
        (s'.conn.authenticated = false ∨ s'.conn.serverConnOpen = false))) :
    ReportInv s' := by
  obtain ⟨hFB, hR1, hDoom, hE, hT, hHalt, hTag⟩ := hInv
  have hnf2 : isFallback (Action.reportError tag e) = false := rfl
  have hr2 : isReport (Action.reportError tag e) = true := rfl
  have hfbeq : fallbacks s'.log = fallbacks s.log := by
    rw [hlog]
    simp [fallbacks, List.countP_append, List.countP_cons, hnf, hnf2]
  have hrepeq : reports s'.log = 1 := by
    have h2 : List.countP isReport [a, Action.reportError tag e] = 1 := by
      simp [List.countP_cons, hnr, hr2]
    simp only [reports, hlog, List.countP_append, h2]
    have h0 : s.log.countP isReport = 0 := hrep0
    omega
  refine ⟨?_, ?_, ?_, ?_, ?_, ?_, ?_⟩
  · rw [hfbeq, hfb]
    exact hFB
  · omega
  · intro _ _
    exact ⟨hfail, hretry, Or.elim hdoomst Or.inl (fun hd => Or.inr (Or.inl hd))⟩
  · intro _
    exact hfail
  · intro hr
    rw [hretry] at hr
    exact Bool.noConfusion hr
  · intro hhh
    rw [hhalt] at hhh
    exact Bool.noConfusion hhh
  · intro st e2 hmem
    rw [hlog] at hmem
    rcases List.mem_append.mp hmem with hm | hm
    · exact hTag st e2 hm
    · rcases List.mem_cons.mp hm with hm2 | hm2
      · rw [← hm2] at hnr
        simp [isReport] at hnr
      · have : Action.reportError st e2 = Action.reportError tag e := by simpa using hm2
        have hst2 : st = tag := by
          injection this
        rw [hst2]
        exact htag

theorem process_ReportInv (inp : Input) (s : LazyState) (hInv : ReportInv s) :
    ReportInv (LazyConnector.process inp s) := by
  obtain ⟨hFB, hR1, hDoom, hE, hT, hHalt, hTag⟩ := id hInv
  by_cases hhb : s.halted = true
  · rw [process_halted inp s hhb]
    exact hInv
  have hh' : s.halted = false := by simpa using hhb
  cases hst : s.stage with
  | Connect =>
      have hfail : s.failed = none := hE (Or.inl hst)
      have hrep0 : reports s.log = 0 :=
        reports_zero_of_stage s hR1 hDoom hh' (by simp [hst]) (by simp [hst]) (by simp [hst])
      have hretry : s.retryConnect = false := retry_false_of_stage s hT (by simp [hst])
      simp only [LazyConnector.process, hh', Bool.false_eq_true, if_false, hst,
        LazyConnector.connect]
      by_cases hopen : s.conn.serverConnOpen = false
      · rw [if_pos hopen]
        cases hce : inp.connectError with
        | none =>
            exact ReportInv_quiet s _ hInv hrep0
              (Or.inr ⟨.pushConnect, rfl, rfl, rfl⟩) rfl hretry rfl (fun _ => hfail)
        | some e =>
            exact ReportInv_report s _ hInv .pushConnect .Connect e hrep0 rfl rfl rfl
              (Or.inl rfl) rfl hretry rfl hfail (Or.inl ⟨rfl, hopen⟩)
      · rw [if_neg hopen]
        exact ReportInv_quiet s _ hInv hrep0 (Or.inl rfl) rfl hretry rfl
          (by intro hx; rcases hx with hx | hx | hx <;> simp at hx)
  | Connected =>
      have hfail : s.failed = none := hE (Or.inr (Or.inl hst))
      have hretry : s.retryConnect = false := retry_false_of_stage s hT (by simp [hst])
      simp only [LazyConnector.process, hh', Bool.false_eq_true, if_false, hst,
        LazyConnector.connected]
      by_cases hopen : s.conn.serverConnOpen = false
      · rw [if_pos hopen]
        exact ReportInv_to_done s _ hInv hh' rfl rfl hretry rfl rfl rfl
      · rw [if_neg hopen]
        have hrep0 : reports s.log = 0 := by
          by_contra hne
          have h2 : reports s.log = 1 := by omega
          rcases hDoom hh' h2 with ⟨_, _, ⟨_, hd⟩ | ⟨hd, _⟩ | hd⟩
          · exact hopen hd
          · simp [hst] at hd
          · simp [hst] at hd
        by_cases hgreet : s.conn.serverGreeting = true
        · simp only [hgreet, if_true]
          by_cases hfast : s.inHandshake = false ∧
              s.conn.clientUsername = s.conn.serverUsername ∧
              s.conn.clientSentAttributes = s.conn.serverSentAttributes
          · rw [if_pos hfast]
            exact ReportInv_quiet s _ hInv hrep0
              (Or.inr ⟨.pushResetConnection, rfl, rfl, rfl⟩) rfl hretry rfl (fun _ => hfail)
          · rw [if_neg hfast]
            cases hcu : inp.changeUserError with
            | none =>
                exact ReportInv_quiet s _ hInv hrep0
                  (Or.inr ⟨.pushChangeUser, rfl, rfl, rfl⟩) rfl hretry rfl (fun _ => hfail)
            | some e =>
                exact ReportInv_report s _ hInv .pushChangeUser .Connected e hrep0 rfl
                  rfl rfl (Or.inr (Or.inl rfl)) rfl hretry rfl hfail
                  (Or.inr ⟨rfl, Or.inl rfl⟩)
        · have hgreet2 : s.conn.serverGreeting = false := by simpa using hgreet
          simp only [hgreet2, Bool.false_eq_true, if_false]
          cases hge : inp.greetorError with
          | none =>
              exact ReportInv_quiet s _ hInv hrep0
                (Or.inr ⟨.pushServerGreetor, rfl, rfl, rfl⟩) rfl hretry rfl (fun _ => hfail)
          | some e =>
              by_cases htr : inp.greetorTransient = true
              · simp only [htr, if_true]
                refine ⟨?_, ?_, ?_, ?_, ?_, ?_, ?_⟩
                · show fallbacks (s.log ++ [.pushServerGreetor]) ≤ _
                  have h2 : List.countP isFallback [Action.pushServerGreetor] = 0 := rfl
                  simp only [fallbacks, List.countP_append, h2, Nat.add_zero]
                  exact hFB
                · show reports (s.log ++ [.pushServerGreetor]) ≤ 1
                  have h2 : List.countP isReport [Action.pushServerGreetor] = 0 := rfl
                  simp only [reports, List.countP_append, h2, Nat.add_zero]
                  exact hR1
                · intro _ h1
                  have h1b : reports (s.log ++ [Action.pushServerGreetor]) = 1 := h1
                  have h3 : reports (s.log ++ [Action.pushServerGreetor]) = 0 := by
                    have h2 : List.countP isReport [Action.pushServerGreetor] = 0 := rfl
                    simp only [reports, List.countP_append, h2, Nat.add_zero]
                    exact hrep0
                  omega
                · intro _
                  exact hfail
                · intro _
                  exact ⟨rfl, rfl⟩
                · intro hx
                  exact Bool.noConfusion hx
                · intro st e2 hmem
                  rcases List.mem_append.mp hmem with hm | hm
                  · exact hTag st e2 hm
                  · simp at hm
              · have htr2 : inp.greetorTransient = false := by simpa using htr
                simp only [htr2, Bool.false_eq_true, if_false]
                exact ReportInv_report s _ hInv .pushServerGreetor .Connected e hrep0
                  rfl rfl rfl (Or.inr (Or.inl rfl)) rfl hretry rfl hfail
                  (Or.inr ⟨rfl, Or.inl rfl⟩)
  | Authenticated =>
      have hfail : s.failed = none := hE (Or.inr (Or.inr hst))
      simp only [LazyConnector.process, hh', Bool.false_eq_true, if_false, hst,
        LazyConnector.authenticated]
      by_cases herr : s.conn.authenticated = false ∨ s.conn.serverConnOpen = false
      · rw [if_pos herr]
        by_cases hr : s.retryConnect = true
        · rw [if_pos hr]
          have hrep0 : reports s.log = 0 := by
            by_contra hne
            have h2 : reports s.log = 1 := by omega
            rcases hDoom hh' h2 with ⟨_, hrf, _⟩
            rw [hr] at hrf
            exact Bool.noConfusion hrf
          exact ReportInv_quiet s _ hInv hrep0 (Or.inl rfl) rfl rfl rfl (fun _ => hfail)
        · rw [if_neg hr]
          exact ReportInv_to_done s _ hInv hh' rfl rfl (by simpa using hr) rfl rfl rfl
      · rw [if_neg herr]
        have hrep0 : reports s.log = 0 := by
          by_contra hne
          have h2 : reports s.log = 1 := by omega
          rcases hDoom hh' h2 with ⟨_, _, ⟨hd, _⟩ | ⟨_, hd⟩ | hd⟩
          · simp [hst] at hd
          · exact herr hd
          · simp [hst] at hd
        have hretry : s.retryConnect = false := by
          cases hrb : s.retryConnect
          · rfl
          · exact absurd (Or.inl (hT hrb).2) herr
        exact ReportInv_quiet s _ hInv hrep0 (Or.inl rfl) rfl hretry rfl
          (by intro hx; rcases hx with hx | hx | hx <;> simp at hx)
  | SetVars =>
      have hrep0 : reports s.log = 0 :=
        reports_zero_of_stage s hR1 hDoom hh' (by simp [hst]) (by simp [hst]) (by simp [hst])
      have hretry : s.retryConnect = false := retry_false_of_stage s hT (by simp [hst])
      simp only [LazyConnector.process, hh', Bool.false_eq_true, if_false, hst,
        LazyConnector.set_vars]
      split
      · exact ReportInv_quiet s _ hInv hrep0
          (Or.inr ⟨_, rfl, rfl, rfl⟩) rfl hretry rfl
          (by intro hx; rcases hx with hx | hx | hx <;> simp at hx)
      · exact ReportInv_quiet s _ hInv hrep0 (Or.inl rfl) rfl hretry rfl
          (by intro hx; rcases hx with hx | hx | hx <;> simp at hx)
  | SetVarsDone =>
      have hrep0 : reports s.log = 0 :=
        reports_zero_of_stage s hR1 hDoom hh' (by simp [hst]) (by simp [hst]) (by simp [hst])
      have hretry : s.retryConnect = false := retry_false_of_stage s hT (by simp [hst])
      simp only [LazyConnector.process, hh', Bool.false_eq_true, if_false, hst,
        LazyConnector.set_vars_done]
      exact ReportInv_quiet s _ hInv hrep0 (Or.inl rfl) rfl hretry rfl
        (by intro hx; rcases hx with hx | hx | hx <;> simp at hx)
  | SetServerOption =>
      have hrep0 : reports s.log = 0 :=
        reports_zero_of_stage s hR1 hDoom hh' (by simp [hst]) (by simp [hst]) (by simp [hst])
      have hretry : s.retryConnect = false := retry_false_of_stage s hT (by simp [hst])
      simp only [LazyConnector.process, hh', Bool.false_eq_true, if_false, hst,
        LazyConnector.set_server_option]
      split
      · exact ReportInv_quiet s _ hInv hrep0 (Or.inl rfl) rfl hretry rfl
          (by intro hx; rcases hx with hx | hx | hx <;> simp at hx)
      · exact ReportInv_quiet s _ hInv hrep0
          (Or.inr ⟨_, rfl, rfl, rfl⟩) rfl hretry rfl
          (by intro hx; rcases hx with hx | hx | hx <;> simp at hx)
  | SetServerOptionDone =>
      have hrep0 : reports s.log = 0 :=
        reports_zero_of_stage s hR1 hDoom hh' (by simp [hst]) (by simp [hst]) (by simp [hst])
      have hretry : s.retryConnect = false := retry_false_of_stage s hT (by simp [hst])
      simp only [LazyConnector.process, hh', Bool.false_eq_true, if_false, hst,
        LazyConnector.set_server_option_done]
      split
      · exact ReportInv_quiet s _ hInv hrep0 (Or.inl rfl) rfl hretry rfl
          (by intro hx; rcases hx with hx | hx | hx <;> simp at hx)
      · exact ReportInv_quiet s _ hInv hrep0 (Or.inl rfl) rfl hretry rfl
          (by intro hx; rcases hx with hx | hx | hx <;> simp at hx)
  | FetchSysVars =>
      have hrep0 : reports s.log = 0 :=
        reports_zero_of_stage s hR1 hDoom hh' (by simp [hst]) (by simp [hst]) (by simp [hst])
      have hretry : s.retryConnect = false := retry_false_of_stage s hT (by simp [hst])
      simp only [LazyConnector.process, hh', Bool.false_eq_true, if_false, hst,
        LazyConnector.fetch_sys_vars]
      split <;> split
      all_goals
        first
          | exact ReportInv_quiet s _ hInv hrep0
              (Or.inr ⟨_, rfl, rfl, rfl⟩) rfl hretry rfl
              (by intro hx; rcases hx with hx | hx | hx <;> simp at hx)
          | exact ReportInv_quiet s _ hInv hrep0 (Or.inl rfl) rfl hretry rfl
              (by intro hx; rcases hx with hx | hx | hx <;> simp at hx)
  | FetchSysVarsDone =>
      have hrep0 : reports s.log = 0 :=
        reports_zero_of_stage s hR1 hDoom hh' (by simp [hst]) (by simp [hst]) (by simp [hst])
      have hretry : s.retryConnect = false := retry_false_of_stage s hT (by simp [hst])
      simp only [LazyConnector.process, hh', Bool.false_eq_true, if_false, hst,
        LazyConnector.fetch_sys_vars_done]
      exact ReportInv_quiet s _ hInv hrep0 (Or.inl rfl) rfl hretry rfl
        (by intro hx; rcases hx with hx | hx | hx <;> simp at hx)
  | SetSchema =>
      have hrep0 : reports s.log = 0 :=
        reports_zero_of_stage s hR1 hDoom hh' (by simp [hst]) (by simp [hst]) (by simp [hst])
      have hretry : s.retryConnect = false := retry_false_of_stage s hT (by simp [hst])
      simp only [LazyConnector.process, hh', Bool.false_eq_true, if_false, hst,
        LazyConnector.set_schema]
      split
      · exact ReportInv_quiet s _ hInv hrep0
          (Or.inr ⟨_, rfl, rfl, rfl⟩) rfl hretry rfl
          (by intro hx; rcases hx with hx | hx | hx <;> simp at hx)
      · exact ReportInv_quiet s _ hInv hrep0 (Or.inl rfl) rfl hretry rfl
          (by intro hx; rcases hx with hx | hx | hx <;> simp at hx)
  | SetSchemaDone =>
      have hrep0 : reports s.log = 0 :=
        reports_zero_of_stage s hR1 hDoom hh' (by simp [hst]) (by simp [hst]) (by simp [hst])
      have hretry : s.retryConnect = false := retry_false_of_stage s hT (by simp [hst])
      simp only [LazyConnector.process, hh', Bool.false_eq_true, if_false, hst,
        LazyConnector.set_schema_done]
      split
      · exact ReportInv_quiet s _ hInv hrep0 (Or.inl rfl) rfl hretry rfl
          (by intro hx; rcases hx with hx | hx | hx <;> simp at hx)
      · exact ReportInv_quiet s _ hInv hrep0 (Or.inl rfl) rfl hretry rfl
          (by intro hx; rcases hx with hx | hx | hx <;> simp at hx)
  | WaitGtidExecuted =>
      have hrep0 : reports s.log = 0 :=
        reports_zero_of_stage s hR1 hDoom hh' (by simp [hst]) (by simp [hst]) (by simp [hst])
      have hretry : s.retryConnect = false := retry_false_of_stage s hT (by simp [hst])
      simp only [LazyConnector.process, hh', Bool.false_eq_true, if_false, hst,
        LazyConnector.wait_gtid_executed]
      split
      · split
        · exact ReportInv_quiet s _ hInv hrep0
            (Or.inr ⟨_, rfl, rfl, rfl⟩) rfl hretry rfl
            (by intro hx; rcases hx with hx | hx | hx <;> simp at hx)
        · exact ReportInv_quiet s _ hInv hrep0 (Or.inl rfl) rfl hretry rfl
            (by intro hx; rcases hx with hx | hx | hx <;> simp at hx)
      · exact ReportInv_quiet s _ hInv hrep0 (Or.inl rfl) rfl hretry rfl
          (by intro hx; rcases hx with hx | hx | hx <;> simp at hx)
  | WaitGtidExecutedDone =>
      have hrep0 : reports s.log = 0 :=
        reports_zero_of_stage s hR1 hDoom hh' (by simp [hst]) (by simp [hst]) (by simp [hst])
      have hretry : s.retryConnect = false := retry_false_of_stage s hT (by simp [hst])
      simp only [LazyConnector.process, hh', Bool.false_eq_true, if_false, hst,
        LazyConnector.wait_gtid_executed_done]
      split
      · exact ReportInv_quiet s _ hInv hrep0 (Or.inl rfl) rfl hretry rfl
          (by intro hx; rcases hx with hx | hx | hx <;> simp at hx)
      · exact ReportInv_quiet s _ hInv hrep0 (Or.inl rfl) rfl hretry rfl
          (by intro hx; rcases hx with hx | hx | hx <;> simp at hx)
  | SetTrxCharacteristics =>
      have hrep0 : reports s.log = 0 :=
        reports_zero_of_stage s hR1 hDoom hh' (by simp [hst]) (by simp [hst]) (by simp [hst])
      have hretry : s.retryConnect = false := retry_false_of_stage s hT (by simp [hst])
      simp only [LazyConnector.process, hh', Bool.false_eq_true, if_false, hst,
        LazyConnector.set_trx_characteristics]
      split
      · exact ReportInv_quiet s _ hInv hrep0 (Or.inl rfl) rfl hretry rfl
          (by intro hx; rcases hx with hx | hx | hx <;> simp at hx)
      · exact ReportInv_quiet s _ hInv hrep0
          (Or.inr ⟨_, rfl, rfl, rfl⟩) rfl hretry rfl
          (by intro hx; rcases hx with hx | hx | hx <;> simp at hx)
  | SetTrxCharacteristicsDone =>
      have hrep0 : reports s.log = 0 :=
        reports_zero_of_stage s hR1 hDoom hh' (by simp [hst]) (by simp [hst]) (by simp [hst])
      have hretry : s.retryConnect = false := retry_false_of_stage s hT (by simp [hst])
      simp only [LazyConnector.process, hh', Bool.false_eq_true, if_false, hst,
        LazyConnector.set_trx_characteristics_done]
      split
      · exact ReportInv_quiet s _ hInv hrep0 (Or.inl rfl) rfl hretry rfl
          (by intro hx; rcases hx with hx | hx | hx <;> simp at hx)
      · exact ReportInv_quiet s _ hInv hrep0 (Or.inl rfl) rfl hretry rfl
          (by intro hx; rcases hx with hx | hx | hx <;> simp at hx)
  | FetchUserAttrs =>
      have hrep0 : reports s.log = 0 :=
        reports_zero_of_stage s hR1 hDoom hh' (by simp [hst]) (by simp [hst]) (by simp [hst])
      have hretry : s.retryConnect = false := retry_false_of_stage s hT (by simp [hst])
      simp only [LazyConnector.process, hh', Bool.false_eq_true, if_false, hst,
        LazyConnector.fetch_user_attrs]
      split
      · exact ReportInv_quiet s _ hInv hrep0 (Or.inl rfl) rfl hretry rfl
          (by intro hx; rcases hx with hx | hx | hx <;> simp at hx)
      · exact ReportInv_quiet s _ hInv hrep0
          (Or.inr ⟨_, rfl, rfl, rfl⟩) rfl hretry rfl
          (by intro hx; rcases hx with hx | hx | hx <;> simp at hx)
  | FetchUserAttrsDone =>
      have hrep0 : reports s.log = 0 :=
        reports_zero_of_stage s hR1 hDoom hh' (by simp [hst]) (by simp [hst]) (by simp [hst])
      have hretry : s.retryConnect = false := retry_false_of_stage s hT (by simp [hst])
      simp only [LazyConnector.process, hh', Bool.false_eq_true, if_false, hst,
        LazyConnector.fetch_user_attrs_done]
      split
      · exact ReportInv_quiet s _ hInv hrep0 (Or.inl rfl) rfl hretry rfl
          (by intro hx; rcases hx with hx | hx | hx <;> simp at hx)
      · split
        · exact ReportInv_quiet s _ hInv hrep0 (Or.inl rfl) rfl hretry rfl
            (by intro hx; rcases hx with hx | hx | hx <;> simp at hx)
        · exact ReportInv_quiet s _ hInv hrep0 (Or.inl rfl) rfl hretry rfl
            (by intro hx; rcases hx with hx | hx | hx <;> simp at hx)
  | SendAuthOk =>
      have hrep0 : reports s.log = 0 :=
        reports_zero_of_stage s hR1 hDoom hh' (by simp [hst]) (by simp [hst]) (by simp [hst])
      have hretry : s.retryConnect = false := retry_false_of_stage s hT (by simp [hst])
      simp only [LazyConnector.process, hh', Bool.false_eq_true, if_false, hst,
        LazyConnector.send_auth_ok]
      split
      · exact ReportInv_quiet s _ hInv hrep0 (Or.inl rfl) rfl hretry rfl
          (by intro hx; rcases hx with hx | hx | hx <;> simp at hx)
      · exact ReportInv_quiet s _ hInv hrep0
          (Or.inr ⟨_, rfl, rfl, rfl⟩) rfl hretry rfl
          (by intro hx; rcases hx with hx | hx | hx <;> simp at hx)
  | PoolOrClose =>
      have hrep0 : reports s.log = 0 :=
        reports_zero_of_stage s hR1 hDoom hh' (by simp [hst]) (by simp [hst]) (by simp [hst])
      have hretry : s.retryConnect = false := retry_false_of_stage s hT (by simp [hst])
      simp only [LazyConnector.process, hh', Bool.false_eq_true, if_false, hst,
        LazyConnector.pool_or_close]
      split
      · exact ReportInv_quiet s _ hInv hrep0 (Or.inl rfl) rfl hretry rfl
          (by intro hx; rcases hx with hx | hx | hx <;> simp at hx)
      · exact ReportInv_quiet s _ hInv hrep0
          (Or.inr ⟨_, rfl, rfl, rfl⟩) rfl hretry rfl
          (by intro hx; rcases hx with hx | hx | hx <;> simp at hx)
  | FallbackToWrite =>
      have hrep0 : reports s.log = 0 :=
        reports_zero_of_stage s hR1 hDoom hh' (by simp [hst]) (by simp [hst]) (by simp [hst])
      have hretry : s.retryConnect = false := retry_false_of_stage s hT (by simp [hst])
      simp only [LazyConnector.process, hh', Bool.false_eq_true, if_false, hst,
        LazyConnector.fallback_to_write]
      by_cases hgo : s.alreadyFallback = true ∨ s.conn.expectedServerMode = .ReadWrite
      · rw [if_pos hgo]
        exact ReportInv_quiet s _ hInv hrep0 (Or.inl rfl) rfl hretry rfl
          (by intro hx; rcases hx with hx | hx | hx <;> simp at hx)
      · rw [if_neg hgo]
        have halready : s.alreadyFallback = false := by
          cases hab : s.alreadyFallback
          · rfl
          · exact absurd (Or.inl hab) hgo
        refine ⟨?_, ?_, ?_, ?_, ?_, ?_, ?_⟩
        · show fallbacks (s.log ++ [.fallbackRestart]) ≤ 1
          have h1 : fallbacks s.log = 0 := by
            have h0 := hFB
            rw [halready] at h0
            simpa using h0
          have h2 : List.countP isFallback [Action.fallbackRestart] = 1 := rfl
          simp only [fallbacks, List.countP_append, h2] at h1 ⊢
          omega
        · show reports (s.log ++ [.fallbackRestart]) ≤ 1
          have h2 : List.countP isReport [Action.fallbackRestart] = 0 := rfl
          simp only [reports, List.countP_append, h2, Nat.add_zero]
          exact hR1
        · intro _ h1
          have h1b : reports (s.log ++ [Action.fallbackRestart]) = 1 := h1
          have h3 : reports (s.log ++ [Action.fallbackRestart]) = 0 := by
            have h2 : List.countP isReport [Action.fallbackRestart] = 0 := rfl
            simp only [reports, List.countP_append, h2, Nat.add_zero]
            exact hrep0
          omega
        · intro _
          rfl
        · intro hr
          rw [hretry] at hr
          exact Bool.noConfusion hr
        · intro hx
          exact Bool.noConfusion hx
        · intro st e2 hmem
          rcases List.mem_append.mp hmem with hm | hm
          · exact hTag st e2 hm
          · simp at hm
  | Done =>
      have hretry : s.retryConnect = false := retry_false_of_stage s hT (by simp [hst])
      simp only [LazyConnector.process, hh', Bool.false_eq_true, if_false, hst,
        LazyConnector.done]
      cases hf : s.failed with
      | some e =>
          have hrep0 : reports s.log = 0 := by
            by_contra hne
            have h2 : reports s.log = 1 := by omega
            have := (hDoom hh' h2).1
            rw [hf] at this
            exact Option.noConfusion this
          refine ⟨?_, ?_, ?_, ?_, ?_, ?_, ?_⟩
          · show fallbacks (s.log ++ [.reportError .Done e]) ≤ _
            have h2 : List.countP isFallback [Action.reportError .Done e] = 0 := rfl
            simp only [fallbacks, List.countP_append, h2, Nat.add_zero]
            exact hFB
          · show reports (s.log ++ [.reportError .Done e]) ≤ 1
            have h2 : List.countP isReport [Action.reportError .Done e] = 1 := rfl
            have h0 : s.log.countP isReport = 0 := hrep0
            simp only [reports, List.countP_append, h2, h0]
            omega
          · intro hx
            exact Bool.noConfusion hx
          · intro hx
            rcases hx with hx | hx | hx <;> simp [hst] at hx
          · intro hr
            rw [hretry] at hr
            exact Bool.noConfusion hr
          · intro _ e2 hfe
            have he2 : e2 = e := by
              have hfe2 : some e = some e2 := hfe
              injection hfe2 with hi
              exact hi.symm
            subst he2
            refine ⟨?_, rfl, ?_⟩
            · show reports (s.log ++ [.reportError .Done e2]) = 1
              have h2 : List.countP isReport [Action.reportError .Done e2] = 1 := rfl
              have h0 : s.log.countP isReport = 0 := hrep0
              simp only [reports, List.countP_append, h2, h0]
            · exact List.mem_append.mpr (Or.inr (List.mem_singleton.mpr rfl))
          · intro st e2 hmem
            rcases List.mem_append.mp hmem with hm | hm
            · exact hTag st e2 hm
            · have : Action.reportError st e2 = Action.reportError .Done e := by
                simpa using hm
              have hst2 : st = .Done := by injection this
              rw [hst2]
              exact Or.inr (Or.inr rfl)
      | none =>
          refine ⟨?_, ?_, ?_, ?_, ?_, ?_, ?_⟩
          · exact hFB
          · exact hR1
          · intro hx
            exact Bool.noConfusion hx
          · intro hx
            rcases hx with hx | hx | hx <;> simp [hst] at hx
          · intro hr
            rw [hretry] at hr
            exact Bool.noConfusion hr
          · intro _ e2 hfe
            have hfe2 : s.failed = some e2 := hfe
            rw [hf] at hfe2
            exact Option.noConfusion hfe2
          · exact hTag

theorem run_ReportInv (inputs : List Input) (s : LazyState) (h : ReportInv s) :
    ReportInv (run s inputs) := by
  induction inputs generalizing s with
  | nil => exact h
  | cons i rest ih => exact ih _ (process_ReportInv i s h)

theorem init_ReportInv (s : LazyState) (h : InitState s) : ReportInv s := by
  obtain ⟨h1, h2, h3, h4, h5, h6⟩ := h
  refine ⟨?_, ?_, ?_, ?_, ?_, ?_, ?_⟩
  · rw [h5]
    simp [fallbacks]
  · rw [h5]
    simp [reports]
  · intro _ hr
    rw [h5] at hr
    simp [reports] at hr
  · intro _
    exact h2
  · intro hr
    rw [h3] at hr
    exact Bool.noConfusion hr
  · intro hh
    rw [h6] at hh
    exact Bool.noConfusion hh
  · intro st e hm
    rw [h5] at hm
    simp at hm

/-- C2 (amended): in every execution of the machine from the start of a
reconciliation attempt, the caller-supplied error callback is invoked at
most once; every invocation is made either at the terminal Done stage or by
the error callbacks the Connect and Connected stages register with their
sub-processors; and when the machine halts with a stored failure the
callback has been invoked exactly once, at the terminal Done stage, with
the connection's authenticated flag cleared (a callback-path report leaves
no stored failure, so Done never reports a second time). -/
theorem error_reported_exactly_once (s0 : LazyState) (inputs : List Input)
    (hinit : InitState s0) :
    reports (run s0 inputs).log ≤ 1
    ∧ (∀ st e, Action.reportError st e ∈ (run s0 inputs).log →
        st = .Connect ∨ st = .Connected ∨ st = .Done)
    ∧ ((run s0 inputs).halted = true → ∀ e, (run s0 inputs).failed = some e →
        reports (run s0 inputs).log = 1 ∧
        (run s0 inputs).conn.authenticated = false ∧
        Action.reportError .Done e ∈ (run s0 inputs).log) := by
  have h := run_ReportInv inputs s0 (init_ReportInv s0 hinit)
  exact ⟨h.2.1, h.2.2.2.2.2.2, h.2.2.2.2.2.1⟩

/-- C2 (counterexample): a failing execution in which the connect
sub-processor's error callback reports the application-level error while
the stage is still Connect: the machine then halts with no stored failure
and its single callback invocation is not at the terminal Done stage,
refuting reported-only-at-Done. -/
theorem error_report_before_done_counterexample :
    InitState exampleInit
    ∧ (run exampleInit
        [exampleConnectFailInput, exampleInput, exampleInput]).halted = true
    ∧ (run exampleInit
        [exampleConnectFailInput, exampleInput, exampleInput]).log =
      [Action.pushConnect,
       Action.reportError .Connect ⟨2003, "connect failed", "HY000"⟩]
    ∧ reports (run exampleInit
        [exampleConnectFailInput, exampleInput, exampleInput]).log = 1
    ∧ (run exampleInit
        [exampleConnectFailInput, exampleInput, exampleInput]).failed = none
    ∧ (Stage.Connect ≠ Stage.Done) := by
  exact ⟨⟨rfl, rfl, rfl, rfl, rfl, rfl⟩, rfl, rfl, rfl, rfl, by decide⟩

theorem error_reported_exactly_once_witness :
    reports (run exampleInit
      [exampleConnectFailInput, exampleInput, exampleInput]).log ≤ 1 :=
  (error_reported_exactly_once exampleInit
    [exampleConnectFailInput, exampleInput, exampleInput]
    ⟨rfl, rfl, rfl, rfl, rfl, rfl⟩).1

/-- C1: within one reconciliation the fallback-to-primary transition fires
at most once: fallback_to_write moves to Connect exactly when no fallback
has happened yet and the expected server mode is read-only; when it fires
it clears the stored failure, switches the expected mode to read-write,
sets the fallback flag and resets the stage to Connect; after a fallback a
second GTID-wait failure passes through PoolOrClose and FallbackToWrite and
then reaches Done with the failure intact and no further restart; and over
any run from the start of an attempt at most one fallback restart appears
in the trace. -/
theorem fallback_to_primary_at_most_once (inp inp2 inp3 : Input) (s : LazyState) :
    (s.halted = false → s.stage = .FallbackToWrite →
      ((LazyConnector.process inp s).stage = .Connect ↔
        s.alreadyFallback = false ∧ s.conn.expectedServerMode = .ReadOnly))
    ∧ (s.halted = false → s.stage = .FallbackToWrite → s.alreadyFallback = false →
        s.conn.expectedServerMode = .ReadOnly →
        (LazyConnector.process inp s).failed = none ∧
        (LazyConnector.process inp s).conn.expectedServerMode = .ReadWrite ∧
        (LazyConnector.process inp s).stage = .Connect ∧
        (LazyConnector.process inp s).alreadyFallback = true)
    ∧ (∀ e, s.halted = false → s.stage = .WaitGtidExecutedDone →
        s.failed = some e → s.alreadyFallback = true →
        (LazyConnector.process inp s).stage = .PoolOrClose ∧
        (LazyConnector.process inp2 (LazyConnector.process inp s)).stage =
          .FallbackToWrite ∧
        (LazyConnector.process inp3 (LazyConnector.process inp2
          (LazyConnector.process inp s))).stage = .Done ∧
        (LazyConnector.process inp3 (LazyConnector.process inp2
          (LazyConnector.process inp s))).failed = some e ∧
        fallbacks (LazyConnector.process inp3 (LazyConnector.process inp2
          (LazyConnector.process inp s))).log = fallbacks s.log)
    ∧ (∀ (s0 : LazyState) (inputs : List Input), InitState s0 →
        fallbacks (run s0 inputs).log ≤ 1) := by
  refine ⟨?_, ?_, ?_, ?_⟩
  · intro hh hst
    simp only [LazyConnector.process, hh, Bool.false_eq_true, if_false, hst,
      LazyConnector.fallback_to_write]
    by_cases hgo : s.alreadyFallback = true ∨ s.conn.expectedServerMode = .ReadWrite
    · rw [if_pos hgo]
      constructor
      · intro hd
        exact Stage.noConfusion hd
      · rintro ⟨ha, hm⟩
        rcases hgo with hg | hg
        · rw [ha] at hg
          exact absurd hg (by decide)
        · rw [hm] at hg
          exact absurd hg (by decide)
    · rw [if_neg hgo]
      constructor
      · intro _
        constructor
        · cases hab : s.alreadyFallback
          · rfl
          · exact absurd (Or.inl hab) hgo
        · cases hm : s.conn.expectedServerMode
          · rfl
          · exact absurd (Or.inr hm) hgo
      · intro _
        rfl
  · intro hh hst ha hm
    simp only [LazyConnector.process, hh, Bool.false_eq_true, if_false, hst,
      LazyConnector.fallback_to_write]
    rw [if_neg (by rw [ha, hm]; simp)]
    exact ⟨rfl, rfl, rfl, rfl⟩
  · intro e hh hst hf ha
    have hs1 : LazyConnector.process inp s = { s with stage := .PoolOrClose } := by
      simp only [LazyConnector.process, hh, Bool.false_eq_true, if_false, hst,
        LazyConnector.wait_gtid_executed_done]
      rw [if_pos (by rw [hf]; rfl)]
    rw [hs1]
    refine ⟨rfl, ?_⟩
    by_cases hpool : inp2.poolStillOpen = true
    · have hs2 : LazyConnector.process inp2 ({ s with stage := .PoolOrClose }) =
          { s with stage := .FallbackToWrite,
                   conn := { s.conn with serverConnOpen := false } } := by
        simp only [LazyConnector.process, hh, Bool.false_eq_true, if_false,
          LazyConnector.pool_or_close, hpool, if_true]
      rw [hs2]
      refine ⟨rfl, ?_⟩
      have hs3 : LazyConnector.process inp3
          ({ s with stage := .FallbackToWrite,
                    conn := { s.conn with serverConnOpen := false } }) =
          { s with stage := .Done,
                   conn := { s.conn with serverConnOpen := false } } := by
        simp only [LazyConnector.process, hh, Bool.false_eq_true, if_false,
          LazyConnector.fallback_to_write]
        rw [if_pos (Or.inl ha)]
      rw [hs3]
      exact ⟨rfl, hf, rfl⟩
    · have hpool2 : inp2.poolStillOpen = false := by simpa using hpool
      have hs2 : LazyConnector.process inp2 ({ s with stage := .PoolOrClose }) =
          { s with stage := .FallbackToWrite,
                   conn := { s.conn with serverConnOpen := false },
                   log := s.log ++ [.pushQuit] } := by
        simp only [LazyConnector.process, hh, Bool.false_eq_true, if_false,
          LazyConnector.pool_or_close, hpool2]
      rw [hs2]
      refine ⟨rfl, ?_⟩
      have hs3 : LazyConnector.process inp3
          ({ s with stage := .FallbackToWrite,
                    conn := { s.conn with serverConnOpen := false },
                    log := s.log ++ [.pushQuit] }) =
          { s with stage := .Done,
                   conn := { s.conn with serverConnOpen := false },
                   log := s.log ++ [.pushQuit] } := by
        simp only [LazyConnector.process, hh, Bool.false_eq_true, if_false,
          LazyConnector.fallback_to_write]
        rw [if_pos (Or.inl ha)]
      rw [hs3]
      refine ⟨rfl, hf, ?_⟩
      have h2 : List.countP isFallback [Action.pushQuit] = 0 := rfl
      simp only [fallbacks, List.countP_append, h2, Nat.add_zero]
  · intro s0 inputs hinit
    have h := (run_ReportInv inputs s0 (init_ReportInv s0 hinit)).1
    split at h
    · omega
    · omega

theorem fallback_to_primary_at_most_once_witness :
    (LazyConnector.process exampleInput
      ⟨.FallbackToWrite, some ⟨0, "wait_for_my_writes timed out", "HY000"⟩, false,
       false, false, [], true, exampleConn, [], false⟩).failed = none
    ∧ (LazyConnector.process exampleInput
      ⟨.FallbackToWrite, some ⟨0, "wait_for_my_writes timed out", "HY000"⟩, false,
       false, false, [], true, exampleConn, [], false⟩).stage = .Connect
    ∧ fallbacks (run exampleInit [exampleInput, exampleInput]).log ≤ 1 := by
  have h := (fallback_to_primary_at_most_once exampleInput exampleInput exampleInput
    ⟨.FallbackToWrite, some ⟨0, "wait_for_my_writes timed out", "HY000"⟩, false,
     false, false, [], true, exampleConn, [], false⟩).2.1 rfl rfl rfl rfl
  refine ⟨h.1, h.2.2.1, ?_⟩
  exact (fallback_to_primary_at_most_once exampleInput exampleInput exampleInput
    exampleInit).2.2.2 exampleInit [exampleInput, exampleInput]
    ⟨rfl, rfl, rfl, rfl, rfl, rfl⟩
